/-
Verification of the litrpg-status-screen event pipeline.

This file gives a shallow embedding, in Lean 4, of the parts of the
repository that the verified properties talk about:

* `src/scraper/src/parsers/event_parser.py` — the deterministic event
  classifier (`EventParser.parse_text`, `parse_and_validate`), including a
  faithful executable model of the Python `re` fragment its patterns use;
* `src/scraper/src/ai/event_attributor.py` — the synchronous attribution
  parser (`EventAttributor._parse_attribution_response`) and the AI-error
  fallback of `attribute_events`;
* `src/scraper/src/ai/batch_processor.py` — the batch attribution parser
  (`BatchProcessor._parse_event_attribution_result`) and the result loop of
  `process_event_attribution_results`.

Python floats are modelled as rationals, Python dicts with optional keys as
structures of `Option` fields, and database writes as explicitly returned
lists.  Character classes `\s`, `\d` and `str.lower`/`str.strip` are modelled
on their ASCII behaviour, which coincides with Python's on every input used
in the concrete theorems below.
-/
import Mathlib

/-! ## A small executable model of the Python `re` fragment used by the parser

Every quantifier occurring in `EventParser.PATTERNS` and
`EventParser.INCOMPLETE_PATTERNS` applies to a single-character class
(`[^\]]+?`, `\s*`, `\d+`, `[^\]]{10,150}`, `[-–—:]?`, …), so quantifiers are
represented directly over character predicates.  The matcher implements the
backtracking preference order of CPython's `re` engine: alternatives
left-to-right, greedy quantifiers longest-first, lazy quantifiers
shortest-first, scanning start positions left to right. -/

inductive Re where
  | eps : Re
  | pred : (Char → Bool) → Re
  | seq : Re → Re → Re
  | alt : Re → Re → Re
  | quant : Nat → Option Nat → Bool → (Char → Bool) → Re
  | group : Nat → Re → Re
  | eos : Re

/-- Length of the maximal run of characters satisfying `p` at the head. -/
def runLenFrom (p : Char → Bool) : List Char → Nat
  | [] => 0
  | c :: cs => if p c then runLenFrom p cs + 1 else 0

/-- First success among candidate repetition counts, in preference order. -/
def firstSome (k : Nat → Option α) : List Nat → Option α
  | [] => none
  | n :: ns => (k n).orElse (fun _ => firstSome k ns)

/-- CPS backtracking matcher.  `g` collects `(group index, start, stop)`
spans; the continuation receives the position after the current node. -/
def reMatch (full : List Char) : Re → Nat → List (Nat × Nat × Nat) →
    (Nat → List (Nat × Nat × Nat) → Option (Nat × List (Nat × Nat × Nat))) →
    Option (Nat × List (Nat × Nat × Nat))
  | .eps, i, g, k => k i g
  | .pred p, i, g, k =>
    match full.get? i with
    | some c => if p c then k (i + 1) g else none
    | none => none
  | .seq a b, i, g, k => reMatch full a i g (fun j g2 => reMatch full b j g2 k)
  | .alt a b, i, g, k => (reMatch full a i g k).orElse (fun _ => reMatch full b i g k)
  | .quant lo hi greedy p, i, g, k =>
    let m := runLenFrom p (full.drop i)
    let top := match hi with | none => m | some h => min h m
    if lo ≤ top then
      let counts := List.range' lo (top - lo + 1)
      firstSome (fun c => k (i + c) g) (if greedy then counts.reverse else counts)
    else none
  | .group n a, i, g, k => reMatch full a i g (fun j g2 => k j ((n, i, j) :: g2))
  | .eos, i, g, k =>
    if i = full.length then k i g
    else if i + 1 = full.length ∧ full.get? i = some '\n' then k i g
    else none

/-- A single regex match: start and stop offsets plus captured group spans. -/
structure RMatch where
  start : Nat
  stop : Nat
  groups : List (Nat × Nat × Nat)
deriving DecidableEq

def matchAt (full : List Char) (r : Re) (i : Nat) : Option (Nat × List (Nat × Nat × Nat)) :=
  reMatch full r i [] (fun j g => some (j, g))

def finditerAux (full : List Char) (r : Re) : Nat → Nat → List RMatch
  | 0, _ => []
  | fuel + 1, i =>
    if i ≤ full.length then
      match matchAt full r i with
      | some (j, g) =>
        { start := i, stop := j, groups := g } :: finditerAux full r fuel (if i < j then j else i + 1)
      | none => finditerAux full r fuel (i + 1)
    else []

/-- `re.finditer`: non-overlapping matches scanning left to right. -/
def finditer (full : List Char) (r : Re) : List RMatch :=
  finditerAux full r (full.length + 1) 0

def sliceStr (full : List Char) (s e : Nat) : List Char :=
  (full.drop s).take (e - s)

/-- `match.group(n)` as the captured slice of the subject string. -/
def groupSlice (full : List Char) (m : RMatch) (n : Nat) : Option (List Char) :=
  (m.groups.find? (fun t => t.1 == n)).map (fun t => sliceStr full t.2.1 t.2.2)

/-! ### Character classes and pattern builders -/

/-- Python `\s` (ASCII subset). -/
def isWS (c : Char) : Bool :=
  c = ' ' || c = '\t' || c = '\n' || c = '\r' || c = '\x0b' || c = '\x0c'

/-- Python `\d` (ASCII subset). -/
def isDigitC (c : Char) : Bool := '0' ≤ c && c ≤ '9'

/-- The class `[^\]]`. -/
def notRB (c : Char) : Bool := !(c = ']')

/-- The class `[A-Z]`. -/
def isUpperAZ (c : Char) : Bool := 'A' ≤ c && c ≤ 'Z'

/-- The class `[→>-]`. -/
def arrowChar (c : Char) : Bool := c = '→' || c = '>' || c = '-'

/-- The class `[-–—:]`. -/
def dashSep (c : Char) : Bool := c = '-' || c = '–' || c = '—' || c = ':'

def rlit (c : Char) : Re := .pred (fun x => x = c)

def rchars (s : String) : Re := (s.data.map rlit).foldr .seq .eps

/-- A case pair like `[Cc]`. -/
def ichar (u l : Char) : Re := .pred (fun x => x = u || x = l)

/-- A word with case-insensitive initial, like `[Oo]btained`. -/
def iword (u l : Char) (rest : String) : Re := .seq (ichar u l) (rchars rest)

def rcat (rs : List Re) : Re := rs.foldr .seq .eps

def ralts : List Re → Re
  | [] => .eps
  | [r] => r
  | r :: rest => .alt r (ralts rest)

def wsStar : Re := .quant 0 none true isWS
def wsPlus : Re := .quant 1 none true isWS
def lazyPlusG (n : Nat) : Re := .group n (.quant 1 none false notRB)
def lazyStarG (n : Nat) : Re := .group n (.quant 0 none false notRB)
def digitsG (n : Nat) : Re := .group n (.quant 1 none true isDigitC)
def optBang : Re := .quant 0 (some 1) true (fun c => c = '!')
def optDot : Re := .quant 0 (some 1) true (fun c => c = '.')
def optDash : Re := .quant 0 (some 1) true dashSep
def arrowPlus : Re := .quant 1 none true arrowChar
def lb : Re := rlit '['
def rb : Re := rlit ']'

/-- `\s*[-–—:]\s*` — the separator in `[Skill - …]`-style patterns. -/
def sepPart : Re := rcat [wsStar, .pred dashSep, wsStar]

/-! ### The patterns of `EventParser.PATTERNS`, in source (dict) order -/

def pat_class_obtained_1 : Re :=
  rcat [lb, lazyPlusG 1, wsPlus, iword 'C' 'c' "lass", wsPlus, iword 'O' 'o' "btained", optBang, rb]
def pat_class_obtained_2 : Re :=
  rcat [lb, lazyPlusG 1, wsPlus, iword 'C' 'c' "lass", wsPlus, iword 'G' 'g' "ained", optBang, rb]
def pat_class_obtained_3 : Re :=
  rcat [lb, lazyPlusG 1, wsPlus, iword 'C' 'c' "lass", wsPlus, iword 'A' 'a' "cquired", optBang, rb]

def pat_class_evolution_1 : Re :=
  rcat [lb, iword 'C' 'c' "onditions", wsPlus, iword 'M' 'm' "et", rlit ':', wsStar,
    lazyPlusG 1, wsStar, arrowPlus, wsStar, lazyPlusG 2, optBang, rb]
def pat_class_evolution_2 : Re :=
  rcat [lb, lazyPlusG 1, wsStar, arrowPlus, wsStar, lazyPlusG 2, wsPlus,
    iword 'C' 'c' "lass", optBang, rb]

def pat_class_consolidation_1 : Re :=
  rcat [lb, lazyPlusG 1, wsStar, rlit '+', wsStar, lazyPlusG 2, wsPlus,
    iword 'C' 'c' "lass", wsPlus, iword 'C' 'c' "onsolidated", optBang, rb]

def pat_class_removed_1 : Re :=
  rcat [lb, lazyPlusG 1, wsPlus, iword 'C' 'c' "lass", wsPlus, iword 'R' 'r' "emoved", optBang, rb]
def pat_class_removed_2 : Re :=
  rcat [lb, lazyPlusG 1, wsPlus, iword 'C' 'c' "lass", wsPlus, iword 'L' 'l' "ost", optDot, rb]

def pat_level_up_1 : Re :=
  rcat [lb, lazyPlusG 1, wsPlus, iword 'L' 'l' "evel", wsPlus, digitsG 2, optBang, rb]
def pat_level_up_2 : Re :=
  rcat [lb, lazyPlusG 1, wsPlus, ichar 'L' 'l', rlit 'v', optDot, wsPlus, digitsG 2, optBang, rb]

def pat_skill_change_1 : Re :=
  rcat [lb, iword 'S' 's' "kill", wsPlus, iword 'C' 'c' "hange", sepPart,
    lazyPlusG 1, wsStar, arrowPlus, wsStar, lazyPlusG 2, optBang, rb]

def pat_skill_consolidation_1 : Re :=
  rcat [lb, iword 'S' 's' "kill", wsPlus, iword 'C' 'c' "onsolidation", rlit ':', wsStar,
    lazyPlusG 1, wsPlus, iword 'R' 'r' "emoved", optBang, rb]

def pat_skill_obtained_1 : Re :=
  rcat [lb, iword 'S' 's' "kill", sepPart, lazyPlusG 1, wsPlus, iword 'O' 'o' "btained", optBang, rb]
def pat_skill_obtained_2 : Re :=
  rcat [lb, iword 'S' 's' "kill", sepPart, lazyPlusG 1, wsPlus, iword 'G' 'g' "ained", optBang, rb]
def pat_skill_obtained_3 : Re :=
  rcat [lb, iword 'S' 's' "kill", sepPart, lazyPlusG 1, wsPlus, iword 'A' 'a' "cquired", optBang, rb]
def pat_skill_obtained_4 : Re :=
  rcat [lb, iword 'S' 's' "kill", sepPart, lazyPlusG 1, wsPlus, iword 'L' 'l' "earned", optBang, rb]

def pat_skill_removed_1 : Re :=
  rcat [lb, iword 'S' 's' "kill", sepPart, lazyPlusG 1, wsPlus, iword 'L' 'l' "ost", optDot, rb]
def pat_skill_removed_2 : Re :=
  rcat [lb, iword 'S' 's' "kill", sepPart, lazyPlusG 1, wsPlus, iword 'R' 'r' "emoved", optBang, rb]

def pat_spell_obtained_1 : Re :=
  rcat [lb, iword 'S' 's' "pell", sepPart, lazyPlusG 1, wsPlus, iword 'O' 'o' "btained", optBang, rb]
def pat_spell_obtained_2 : Re :=
  rcat [lb, iword 'S' 's' "pell", sepPart, lazyPlusG 1, wsPlus, iword 'G' 'g' "ained", optBang, rb]
def pat_spell_obtained_3 : Re :=
  rcat [lb, iword 'S' 's' "pell", sepPart, lazyPlusG 1, wsPlus, iword 'A' 'a' "cquired", optBang, rb]
def pat_spell_obtained_4 : Re :=
  rcat [lb, iword 'S' 's' "pell", sepPart, lazyPlusG 1, wsPlus, iword 'L' 'l' "earned", optBang, rb]

def pat_spell_removed_1 : Re :=
  rcat [lb, iword 'S' 's' "pell", sepPart, lazyPlusG 1, wsPlus, iword 'L' 'l' "ost", optDot, rb]
def pat_spell_removed_2 : Re :=
  rcat [lb, iword 'S' 's' "pell", sepPart, lazyPlusG 1, wsPlus, iword 'R' 'r' "emoved", optBang, rb]

def pat_condition_1 : Re :=
  rcat [lb, iword 'C' 'c' "ondition", sepPart, lazyPlusG 1, wsPlus, iword 'R' 'r' "eceived", optDot, rb]
def pat_condition_2 : Re :=
  rcat [lb, iword 'C' 'c' "ondition", sepPart, lazyPlusG 1, wsPlus, iword 'O' 'o' "btained", optDot, rb]
def pat_condition_3 : Re :=
  rcat [lb, iword 'C' 'c' "ondition", sepPart, lazyPlusG 1, wsPlus, iword 'G' 'g' "ained", optDot, rb]

def pat_aspect_1 : Re :=
  rcat [lb, iword 'A' 'a' "spect", sepPart, lazyPlusG 1, wsPlus, iword 'O' 'o' "btained", optDot, rb]
def pat_aspect_2 : Re :=
  rcat [lb, iword 'A' 'a' "spect", sepPart, lazyPlusG 1, wsPlus, iword 'G' 'g' "ained", optDot, rb]
def pat_aspect_3 : Re :=
  rcat [lb, iword 'A' 'a' "spect", sepPart, lazyPlusG 1, wsPlus, iword 'R' 'r' "eceived", optDot, rb]

def pat_title_1 : Re :=
  rcat [lb, iword 'T' 't' "itle", sepPart, lazyPlusG 1, wsPlus, iword 'O' 'o' "btained", optBang, rb]
def pat_title_2 : Re :=
  rcat [lb, iword 'T' 't' "itle", sepPart, lazyPlusG 1, wsPlus, iword 'G' 'g' "ained", optBang, rb]
def pat_title_3 : Re :=
  rcat [lb, iword 'T' 't' "itle", sepPart, lazyPlusG 1, wsPlus, iword 'A' 'a' "cquired", optBang, rb]

def pat_rank_1 : Re :=
  rcat [lb, iword 'R' 'r' "ank", wsPlus, digitsG 1, wsPlus, lazyPlusG 2, optDash, wsStar,
    lazyStarG 3, optDot, rb]

def pat_other_1 : Re :=
  rcat [lb,
    .group 1 (rcat [.pred isUpperAZ, .quant 10 (some 150) true notRB,
      ralts [iword 'O' 'o' "btained", iword 'G' 'g' "ained", iword 'R' 'r' "eceived",
        iword 'A' 'a' "cquired", iword 'L' 'l' "earned", iword 'I' 'i' "ncreased",
        iword 'D' 'd' "ecreased", iword 'U' 'u' "nlocked"]]),
    optDot, rb]

/-- `EventParser.PATTERNS`, in Python dict (insertion) order. -/
def PATTERNS : List (String × List Re) :=
  [("class_obtained", [pat_class_obtained_1, pat_class_obtained_2, pat_class_obtained_3]),
   ("class_evolution", [pat_class_evolution_1, pat_class_evolution_2]),
   ("class_consolidation", [pat_class_consolidation_1]),
   ("class_removed", [pat_class_removed_1, pat_class_removed_2]),
   ("level_up", [pat_level_up_1, pat_level_up_2]),
   ("skill_change", [pat_skill_change_1]),
   ("skill_consolidation", [pat_skill_consolidation_1]),
   ("skill_obtained", [pat_skill_obtained_1, pat_skill_obtained_2, pat_skill_obtained_3,
     pat_skill_obtained_4]),
   ("skill_removed", [pat_skill_removed_1, pat_skill_removed_2]),
   ("spell_obtained", [pat_spell_obtained_1, pat_spell_obtained_2, pat_spell_obtained_3,
     pat_spell_obtained_4]),
   ("spell_removed", [pat_spell_removed_1, pat_spell_removed_2]),
   ("condition", [pat_condition_1, pat_condition_2, pat_condition_3]),
   ("aspect", [pat_aspect_1, pat_aspect_2, pat_aspect_3]),
   ("title", [pat_title_1, pat_title_2, pat_title_3]),
   ("rank", [pat_rank_1]),
   ("other", [pat_other_1])]

/-- `EventParser.INCOMPLETE_PATTERNS`. -/
def INCOMPLETE_PATTERNS : List Re :=
  [rcat [lb, lazyPlusG 1, wsPlus, iword 'C' 'c' "lass", wsStar, .eos],
   rcat [lb, iword 'S' 's' "kill", sepPart, lazyStarG 1, .eos],
   rcat [lb, lazyPlusG 1, wsPlus, iword 'L' 'l' "evel", wsStar, .eos]]

/-! ## `ProgressionEvent` and `EventParser.parse_text` -/

/-- A value in a `ProgressionEvent.parsed_data` dict. -/
inductive PDVal where
  | pstr : String → PDVal
  | pnat : Nat → PDVal
  | pbool : Bool → PDVal
  | plist : List String → PDVal
deriving DecidableEq

def pdGet (pd : List (String × PDVal)) (key : String) : Option PDVal :=
  (pd.find? (fun kv => kv.1 == key)).map (fun kv => kv.2)

def pdGetStr (pd : List (String × PDVal)) (key : String) : Option String :=
  match pdGet pd key with
  | some (.pstr s) => some s
  | _ => none

def pdGetNat (pd : List (String × PDVal)) (key : String) : Option Nat :=
  match pdGet pd key with
  | some (.pnat n) => some n
  | _ => none

/-- `ProgressionEvent` from `src/scraper/src/parsers/event_parser.py`. -/
structure ProgressionEvent where
  event_type : String
  raw_text : String
  parsed_data : List (String × PDVal)
  context : String
  position : Nat
  is_incomplete : Bool
deriving DecidableEq

def CONTEXT_WINDOW : Nat := 150

/-- Python `str.strip()` (ASCII whitespace). -/
def pyStrip (s : List Char) : List Char :=
  ((s.dropWhile isWS).reverse.dropWhile isWS).reverse

/-- Accumulator pass of `pySplitWS` (`acc` holds the current run,
reversed). -/
def pySplitGo : List Char → List Char → List (List Char)
  | [], acc => if acc.isEmpty then [] else [acc.reverse]
  | c :: cs, acc =>
    if isWS c then
      if acc.isEmpty then pySplitGo cs [] else acc.reverse :: pySplitGo cs []
    else pySplitGo cs (c :: acc)

/-- Python `str.split()`: maximal runs of non-whitespace. -/
def pySplitWS (s : List Char) : List (List Char) := pySplitGo s []

/-- `int()` applied to a `\d+` capture. -/
def pyInt (s : List Char) : Option Nat :=
  if s ≠ [] ∧ s.all isDigitC then
    some (s.foldl (fun a c => a * 10 + (c.toNat - '0'.toNat)) 0)
  else none

/-- `EventParser._extract_context`. -/
def extract_context (text : List Char) (position : Nat) : List Char :=
  let start := position - CONTEXT_WINDOW
  let stop := min text.length (position + CONTEXT_WINDOW)
  let ctx := sliceStr text start stop
  let ctx := List.intercalate [' '] (pySplitWS ctx)
  let ctx := if 0 < start then '.' :: '.' :: '.' :: ctx else ctx
  if stop < text.length then ctx ++ ['.', '.', '.'] else ctx

/-- The `parsed_data` computation of `EventParser._create_event`: the
if/elif chain over the event type, with the source's `return None`
validation failures as `none`. -/
def create_event_data (event_type : String) (m : RMatch) (full : List Char) :
    Option (List (String × PDVal)) :=
  let raw_text := sliceStr full m.start m.stop
  let mkEv := fun (pd : List (String × PDVal)) => some pd
  if event_type = "class_obtained" then
    let class_name := pyStrip ((groupSlice full m 1).getD [])
    if class_name = [] then none else mkEv [("class_name", .pstr ⟨class_name⟩)]
  else if event_type = "class_evolution" then
    match groupSlice full m 1, groupSlice full m 2 with
    | some g1, some g2 =>
      let old_class := pyStrip g1
      let new_class := pyStrip g2
      if old_class = [] ∨ new_class = [] then none
      else mkEv [("old_class", .pstr ⟨old_class⟩), ("new_class", .pstr ⟨new_class⟩)]
    | _, _ => none
  else if event_type = "class_consolidation" then
    match groupSlice full m 1, groupSlice full m 2 with
    | some g1, some g2 =>
      let class_1 := pyStrip g1
      let class_2 := pyStrip g2
      if class_1 = [] ∨ class_2 = [] then none
      else mkEv [("old_classes", .plist [⟨class_1⟩, ⟨class_2⟩]), ("consolidated", .pbool true)]
    | _, _ => none
  else if event_type = "class_removed" then
    let class_name := pyStrip ((groupSlice full m 1).getD [])
    if class_name = [] then none else mkEv [("class_name", .pstr ⟨class_name⟩)]
  else if event_type = "level_up" then
    match groupSlice full m 1, groupSlice full m 2 with
    | some g1, some g2 =>
      let class_name := pyStrip g1
      match pyInt g2 with
      | some level => mkEv [("class_name", .pstr ⟨class_name⟩), ("level", .pnat level)]
      | none => none
    | _, _ => none
  else if event_type = "skill_change" then
    match groupSlice full m 1, groupSlice full m 2 with
    | some g1, some g2 =>
      let old_skill := pyStrip g1
      let new_skill := pyStrip g2
      if old_skill = [] ∨ new_skill = [] then none
      else mkEv [("old_skill", .pstr ⟨old_skill⟩), ("new_skill", .pstr ⟨new_skill⟩)]
    | _, _ => none
  else if event_type = "skill_consolidation" then
    let skill_name := pyStrip ((groupSlice full m 1).getD [])
    if skill_name = [] then none
    else mkEv [("skill_name", .pstr ⟨skill_name⟩), ("consolidated", .pbool true)]
  else if event_type = "skill_obtained" then
    let skill_name := pyStrip ((groupSlice full m 1).getD [])
    if skill_name = [] then none else mkEv [("skill_name", .pstr ⟨skill_name⟩)]
  else if event_type = "skill_removed" then
    let skill_name := pyStrip ((groupSlice full m 1).getD [])
    if skill_name = [] then none else mkEv [("skill_name", .pstr ⟨skill_name⟩)]
  else if event_type = "spell_obtained" then
    let spell_name := pyStrip ((groupSlice full m 1).getD [])
    if spell_name = [] then none else mkEv [("spell_name", .pstr ⟨spell_name⟩)]
  else if event_type = "spell_removed" then
    let spell_name := pyStrip ((groupSlice full m 1).getD [])
    if spell_name = [] then none else mkEv [("spell_name", .pstr ⟨spell_name⟩)]
  else if event_type = "condition" then
    let condition_name := pyStrip ((groupSlice full m 1).getD [])
    if condition_name = [] then none else mkEv [("condition_name", .pstr ⟨condition_name⟩)]
  else if event_type = "aspect" then
    let aspect_name := pyStrip ((groupSlice full m 1).getD [])
    if aspect_name = [] then none else mkEv [("aspect_name", .pstr ⟨aspect_name⟩)]
  else if event_type = "title" then
    let title_name := pyStrip ((groupSlice full m 1).getD [])
    if title_name = [] then none else mkEv [("title_name", .pstr ⟨title_name⟩)]
  else if event_type = "rank" then
    match groupSlice full m 1, groupSlice full m 2 with
    | some g1, some g2 =>
      match pyInt g1 with
      | some rank_number =>
        let rank_type := pyStrip g2
        let rank_name := pyStrip ((groupSlice full m 3).getD [])
        if rank_type = [] then none
        else mkEv [("rank_number", .pnat rank_number), ("rank_type", .pstr ⟨rank_type⟩),
          ("rank_name", .pstr ⟨rank_name⟩)]
      | none => none
    | _, _ => none
  else if event_type = "other" then
    let content := match groupSlice full m 1 with
      | some g1 => pyStrip g1
      | none => raw_text
    mkEv [("content", .pstr ⟨content⟩)]
  else
    mkEv []

/-- `EventParser._create_event`: the single `return ProgressionEvent(...)`
at the end of the source function, fed by `create_event_data`. -/
def create_event (event_type : String) (m : RMatch) (full : List Char) :
    Option ProgressionEvent :=
  (create_event_data event_type m full).map (fun pd =>
    { event_type := event_type, raw_text := ⟨sliceStr full m.start m.stop⟩,
      parsed_data := pd, context := ⟨extract_context full m.start⟩,
      position := m.start, is_incomplete := false })

/-- Python `sub in s` for strings: contiguous-substring containment. -/
def isSubstr (needle : List Char) : List Char → Bool
  | [] => needle.isEmpty
  | c :: cs => needle.isPrefixOf (c :: cs) || isSubstr needle cs

/-- The event-type/`parsed_data` determination of
`EventParser._create_incomplete_event` (matched text lower-cased and probed
for `class`/`skill`/`level`). -/
def create_incomplete_data (m : RMatch) (full : List Char) :
    Option (String × List (String × PDVal)) :=
  let raw_text := sliceStr full m.start m.stop
  let text_lower := raw_text.map Char.toLower
  let name := match groupSlice full m 1 with
    | some g1 => pyStrip g1
    | none => "[incomplete]".data
  if isSubstr "class".data text_lower then
    some ("class_obtained", [("class_name", .pstr ⟨name⟩)])
  else if isSubstr "skill".data text_lower then
    some ("skill_obtained", [("skill_name", .pstr ⟨name⟩)])
  else if isSubstr "level".data text_lower then
    some ("level_up", [("class_name", .pstr ⟨name⟩)])
  else none

/-- `EventParser._create_incomplete_event`: the single
`return ProgressionEvent(...)` fed by `create_incomplete_data`, with
`is_incomplete=True`. -/
def create_incomplete_event (m : RMatch) (full : List Char) : Option ProgressionEvent :=
  (create_incomplete_data m full).map (fun typd =>
    { event_type := typd.1, raw_text := ⟨sliceStr full m.start m.stop⟩,
      parsed_data := typd.2, context := ⟨extract_context full m.start⟩,
      position := m.start, is_incomplete := true })

/-- Stable insertion used to model Python's stable `list.sort(key=position)`:
an element is placed before the first already-placed element with a strictly
larger position, so equal positions keep their original order. -/
def insertByPos (x : ProgressionEvent) : List ProgressionEvent → List ProgressionEvent
  | [] => [x]
  | y :: ys => if y.position < x.position then y :: insertByPos x ys else x :: y :: ys

def sortByPos : List ProgressionEvent → List ProgressionEvent
  | [] => []
  | x :: xs => insertByPos x (sortByPos xs)

/-- `EventParser.parse_text`: run every pattern of every event type over the
text, collect an event per match (dropping the source's `None` returns), add
incomplete-annotation events, and sort by document position. -/
def parse_text (text : String) : List ProgressionEvent :=
  if text = "" then []
  else
    let full := text.data
    let regular := PATTERNS.flatMap (fun tp =>
      tp.2.flatMap (fun r => (finditer full r).filterMap (fun m => create_event tp.1 m full)))
    let incomplete := INCOMPLETE_PATTERNS.flatMap (fun r =>
      (finditer full r).filterMap (fun m => create_incomplete_event m full))
    sortByPos (regular ++ incomplete)

/-- `EventParser._validate_event` (the unused `full_text` parameter kept). -/
def validate_event (ev : ProgressionEvent) (full_text : String) : Bool :=
  if ev.event_type = "class_obtained" then
    let class_name := (pdGetStr ev.parsed_data "class_name").getD ""
    !(class_name.length < 3 || class_name.length > 100)
  else if ev.event_type = "level_up" then
    let level := (pdGetNat ev.parsed_data "level").getD 0
    !(level < 1 || level > 100)
  else if ev.event_type = "skill_obtained" || ev.event_type = "spell_obtained" then
    let skill := pdGetStr ev.parsed_data "skill_name"
    let name := match skill with
      | some s => if s = "" then (pdGetStr ev.parsed_data "spell_name").getD "" else s
      | none => (pdGetStr ev.parsed_data "spell_name").getD ""
    !(name.length < 3 || name.length > 200)
  else true

/-- `EventParser.parse_and_validate`. -/
def parse_and_validate (text : String) : List ProgressionEvent :=
  (parse_text text).filter (fun ev => validate_event ev text)

/-! ## Attribution: `EventAttributor` and `BatchProcessor`

Judgments are the entries of the AI response's `attributions` list; missing
JSON keys are `none` (the source reads them with `dict.get` defaults).
Confidence values are rationals.

Both parsers resolve character names through
`self.wiki_cache.get_character_id(name)` (event_attributor.py line 320;
batch_processor.py line 801, via `_get_character_id`), where `wiki_cache`
is the `WikiReferenceCache` of `wiki_reference.py`.  That class defines no
`get_character_id` method (the only `get_character_id` in the repository is
on the unrelated `CharacterExtractor`), so the call raises `AttributeError`
whenever it is reached — that is, for every judgment whose character name
is non-empty; `None` and `""` are falsy and skip the call, leaving
`character_id = None`.  Raised exceptions are modelled with `Except`: an
`error` result means the Python function raises instead of returning. -/

/-- Confidence threshold from `event_attributor.py`. -/
def AUTO_ACCEPT_THRESHOLD : ℚ := 93 / 100

/-- Review threshold from `event_attributor.py` (not consulted by either
attribution parser, kept for completeness). -/
def REVIEW_THRESHOLD : ℚ := 70 / 100

/-- One entry of the response's `attributions` list. -/
structure Judgment where
  event_id : Option Int
  confidence : Option ℚ
  character_name : Option String
  event_type : Option String
  parsed_data : List (String × String)
  reasoning : Option String
deriving DecidableEq

/-- The parsed JSON body of an attribution response. -/
structure AttrData where
  attributions : List Judgment
deriving DecidableEq

/-- An input event handed to attribution (row of `raw_events`). -/
structure InputEvent where
  id : Int
  raw_text : String
  surrounding_text : String
deriving DecidableEq

/-- `EventAttribution` from `event_attributor.py`. -/
structure EventAttribution where
  event_id : Int
  event_type : String
  character_name : Option String
  character_id : Option Int
  parsed_data : List (String × String)
  confidence : ℚ
  reasoning : String
  auto_accepted : Bool
  needs_review : Bool
deriving DecidableEq

/-- A raised Python exception. -/
inductive PyError where
  | attributeError : String → PyError
deriving DecidableEq

/-- The call `self.wiki_cache.get_character_id(name)`: `WikiReferenceCache`
defines no `get_character_id` attribute, so the call raises
`AttributeError` for every name it is invoked on and never returns an id. -/
def wikiCacheGetCharacterId (_name : String) : Except PyError (Option Int) :=
  .error (.attributeError "get_character_id")

/-- Sync-path character resolution (event_attributor.py lines 318-320):
`character_id = None; if character_name: character_id =
self.wiki_cache.get_character_id(character_name)`. -/
def syncCharacterId : Option String → Except PyError (Option Int)
  | some n => if n = "" then .ok none else wikiCacheGetCharacterId n
  | none => .ok none

/-- `BatchProcessor._get_character_id`: `if not name: return None`, then the
(nonexistent) wiki lookup. -/
def batchGetCharacterId (name : String) : Except PyError (Option Int) :=
  if name = "" then .ok none else wikiCacheGetCharacterId name

/-- Batch-path character resolution (batch_processor.py line 755):
`character_id = self._get_character_id(character_name) if character_name
else None`. -/
def batchCharacterId : Option String → Except PyError (Option Int)
  | some n => if n = "" then .ok none else batchGetCharacterId n
  | none => .ok none

/-- Loop body of `EventAttributor._parse_attribution_response` for one
judgment whose `event_id` is in the input set; raises when the character
lookup does. -/
def syncJudgmentAttribution (eventId : Int) (attr : Judgment) :
    Except PyError EventAttribution :=
  let confidence := attr.confidence.getD (1 / 2)
  let character_name := attr.character_name
  let event_type := attr.event_type.getD "other"
  (syncCharacterId character_name).map fun character_id =>
    let flags : Bool × Bool :=
      if event_type = "false_positive" then (false, true)
      else (decide (AUTO_ACCEPT_THRESHOLD ≤ confidence),
        decide (confidence < AUTO_ACCEPT_THRESHOLD))
    { event_id := eventId, event_type := event_type, character_name := character_name,
      character_id := character_id, parsed_data := attr.parsed_data, confidence := confidence,
      reasoning := attr.reasoning.getD "", auto_accepted := flags.1, needs_review := flags.2 }

/-- Loop body of `BatchProcessor._parse_event_attribution_result` for one
judgment whose `event_id` is in the input set: auto-accept additionally
requires a resolved character; raises when the character lookup does. -/
def batchJudgmentAttribution (eventId : Int) (attr : Judgment) :
    Except PyError EventAttribution :=
  let confidence := attr.confidence.getD (1 / 2)
  let event_type := attr.event_type.getD "other"
  let character_name := attr.character_name
  (batchCharacterId character_name).map fun character_id =>
    let flags : Bool × Bool :=
      if event_type = "false_positive" then (false, true)
      else
        let has_character := character_id.isSome
        let auto := decide (AUTO_ACCEPT_THRESHOLD ≤ confidence) && has_character
        (auto, !auto)
    { event_id := eventId, event_type := event_type, character_name := character_name,
      character_id := character_id, parsed_data := attr.parsed_data, confidence := confidence,
      reasoning := attr.reasoning.getD "", auto_accepted := flags.1, needs_review := flags.2 }

/-- The review-flagged attribution synthesized for an input event absent from
the response (`"Event not processed by AI"`), shared by both parsers. -/
def notProcessedAttribution (eventId : Int) : EventAttribution :=
  { event_id := eventId, event_type := "other", character_name := none, character_id := none,
    parsed_data := [], confidence := 0, reasoning := "Event not processed by AI",
    auto_accepted := false, needs_review := true }

/-- The attribution created per event when the sync response has no parseable
JSON (`"Failed to parse AI response"`). -/
def failedParseAttribution (eventId : Int) : EventAttribution :=
  { event_id := eventId, event_type := "other", character_name := none, character_id := none,
    parsed_data := [], confidence := 0, reasoning := "Failed to parse AI response",
    auto_accepted := false, needs_review := true }

/-- The attribution created per event of a batch when `attribute_events`
catches an `AIError` (`"AI processing failed: …"`); note `AttributeError`
from the character lookup is NOT caught there and propagates. -/
def aiErrorAttribution (eventId : Int) (msg : String) : EventAttribution :=
  { event_id := eventId, event_type := "other", character_name := none, character_id := none,
    parsed_data := [], confidence := 0, reasoning := "AI processing failed: " ++ msg,
    auto_accepted := false, needs_review := true }

/-- The shared judgment loop of both attribution parsers: walk the response's
`attributions` list, skip entries whose `event_id` is missing or not among
the input event ids, record each processed id in the `processed_ids` set, and
build one attribution per kept judgment with the given per-judgment
constructor (`syncJudgmentAttribution` / `batchJudgmentAttribution`).  An
exception raised by the constructor aborts the whole loop. -/
def attributionLoop (mk : Int → Judgment → Except PyError EventAttribution)
    (eventIds : List Int) :
    List Judgment → List Int → Except PyError (List EventAttribution × List Int)
  | [], processed => .ok ([], processed)
  | j :: rest, processed =>
    match j.event_id with
    | none => attributionLoop mk eventIds rest processed
    | some eid =>
      if eid ∈ eventIds then
        let processed2 := if eid ∈ processed then processed else eid :: processed
        (mk eid j).bind fun a =>
          (attributionLoop mk eventIds rest processed2).map fun r => (a :: r.1, r.2)
      else attributionLoop mk eventIds rest processed

/-- `EventAttributor._parse_attribution_response`; raises (returns `error`)
iff the judgment loop does. -/
def parseAttributionResponse (respJson : Option AttrData)
    (originalEvents : List InputEvent) : Except PyError (List EventAttribution) :=
  match respJson with
  | none => .ok (originalEvents.map (fun e => failedParseAttribution e.id))
  | some data =>
    let eventIds := originalEvents.map (fun e => e.id)
    (attributionLoop syncJudgmentAttribution eventIds data.attributions []).map fun r =>
      r.1 ++ (originalEvents.filter (fun e => !(e.id ∈ r.2 : Bool))).map
        (fun e => notProcessedAttribution e.id)

/-- `BatchProcessor._parse_event_attribution_result`; raises iff the
judgment loop does. -/
def parseEventAttributionResult (resultJson : Option AttrData)
    (eventIds : List Int) : Except PyError (List EventAttribution) :=
  let parsed : Except PyError (List EventAttribution × List Int) :=
    match resultJson with
    | none => Except.ok ([], [])
    | some data => attributionLoop batchJudgmentAttribution eventIds data.attributions []
  parsed.map fun r =>
    r.1 ++ (eventIds.filter (fun i => !(i ∈ r.2 : Bool))).map notProcessedAttribution

/-- The `except AIError` fallback of `EventAttributor.attribute_events`:
every event of the failed batch gets a review-flagged attribution. -/
def attributeEventsFailedBatch (events : List InputEvent) (msg : String) :
    List EventAttribution :=
  events.map (fun e => aiErrorAttribution e.id msg)

/-! ### `BatchProcessor.process_event_attribution_results` -/

inductive BatchResultType where
  | succeeded
  | errored
  | canceled
  | expired
deriving DecidableEq

/-- `BatchResult` from `batch_client.py` (fields used by result processing). -/
structure BatchResult where
  custom_id : String
  result_type : BatchResultType
  parsed_json : Option AttrData
  error_message : Option String
deriving DecidableEq

/-- Per-request metadata stored at submission time (`chapter_id`,
`event_ids`), looked up by `custom_id`. -/
structure RequestMetadata where
  chapter_id : Option Int
  event_ids : List Int
deriving DecidableEq

/-- The stats dict built by `process_event_attribution_results`. -/
structure BatchStats where
  chapters_processed : Nat
  events_processed : Nat
  auto_accepted : Nat
  flagged_review : Nat
  errors : Nat
deriving DecidableEq

/-- `EventAttributor.save_attributions` / `_save_event_attributions` counting
(each row update modelled as succeeding): auto-accepted count and
flagged-for-review count. -/
def saveCounts (attrs : List EventAttribution) : Nat × Nat :=
  (attrs.countP (fun a => a.auto_accepted),
   attrs.countP (fun a => !a.auto_accepted && a.needs_review))

/-- The result loop of `BatchProcessor.process_event_attribution_results`
(`dry_run=False`), with the database writes of `_save_event_attributions`
modelled as an explicitly returned list: a `succeeded` result is parsed and
its attributions saved; any other result only increments the error tally and
records the failure on the batch-request row — no attribution is created for
its events.  A failed result never aborts the loop, but an exception raised
while parsing a succeeded result (the nonexistent character lookup) does:
the function then raises, modelled as `error` (attributions already saved
for earlier results are not represented in the error case). -/
def processEventAttributionResults (results : List BatchResult)
    (metadata : String → Option RequestMetadata) :
    Except PyError (BatchStats × List EventAttribution) :=
  match results with
  | [] => .ok ({ chapters_processed := 0, events_processed := 0, auto_accepted := 0,
                 flagged_review := 0, errors := 0 }, [])
  | r :: rest =>
    let eventIds := ((metadata r.custom_id).map (fun md => md.event_ids)).getD []
    if r.result_type = BatchResultType.succeeded then
      (parseEventAttributionResult r.parsed_json eventIds).bind fun attributions =>
        (processEventAttributionResults rest metadata).map fun acc =>
          let sc := saveCounts attributions
          ({ chapters_processed := acc.1.chapters_processed + 1,
             events_processed := acc.1.events_processed + eventIds.length,
             auto_accepted := acc.1.auto_accepted + sc.1,
             flagged_review := acc.1.flagged_review + sc.2,
             errors := acc.1.errors }, attributions ++ acc.2)
    else
      (processEventAttributionResults rest metadata).map fun acc =>
        ({ acc.1 with errors := acc.1.errors + 1 }, acc.2)

/-! ## Specification-only definitions -/

/-- Accumulator pass of `alphaWords`. -/
def alphaWordsGo : List Char → List Char → List (List Char)
  | [], acc => if acc.isEmpty then [] else [acc.reverse]
  | c :: cs, acc =>
    if c.isAlpha then alphaWordsGo cs (c :: acc)
    else if acc.isEmpty then alphaWordsGo cs [] else acc.reverse :: alphaWordsGo cs []

/-- Modelled from the spec: the Heuristic Event Filter's tokenization of a
bracket interior into alphabetic words, case-insensitive (§4.2).  The filter
component itself does not exist under `src/`; this tokenizer is used only to
state the spec's word-count rule about the pipeline's output. -/
def alphaWords (s : List Char) : List (List Char) := alphaWordsGo s []


/-! ## Helper lemmas about `Except` and the judgment loop -/

theorem except_map_eq_ok {f : α → β} {x : Except ε α} {b : β}
    (h : x.map f = .ok b) : ∃ a, x = .ok a ∧ f a = b := by
  cases x with
  | error e => simp [Except.map] at h
  | ok a => exact ⟨a, rfl, by simpa [Except.map] using h⟩

theorem except_map_ok (f : α → β) (a : α) :
    (Except.ok a : Except ε α).map f = .ok (f a) := rfl

theorem except_map_error (f : α → β) (e : ε) :
    (Except.error e : Except ε α).map f = .error e := rfl

theorem except_bind_ok (a : α) (f : α → Except ε β) :
    (Except.ok a : Except ε α).bind f = f a := rfl

theorem except_bind_error (e : ε) (f : α → Except ε β) :
    (Except.error e : Except ε α).bind f = .error e := rfl

theorem except_map_map (f : α → β) (g : β → γ) (x : Except ε α) :
    (x.map f).map g = x.map (fun a => g (f a)) := by
  cases x <;> rfl

/-- If the judgment loop completes, its attribution list is the filterMap of
the kept judgments' (necessarily successful) constructor results. -/
theorem attributionLoop_ok_fst {mk : Int → Judgment → Except PyError EventAttribution}
    {eventIds : List Int} {js : List Judgment} {p : List Int}
    {r : List EventAttribution × List Int}
    (h : attributionLoop mk eventIds js p = .ok r) :
    r.1 = js.filterMap (fun j => match j.event_id with
      | some e => if e ∈ eventIds then (mk e j).toOption else none
      | none => none) := by
  induction js generalizing p r with
  | nil =>
    simp only [attributionLoop, Except.ok.injEq] at h
    rw [← h]
    rfl
  | cons j rest ih =>
    rw [List.filterMap_cons]
    cases hje : j.event_id with
    | none =>
      simp only [attributionLoop, hje] at h
      exact ih h
    | some eid =>
      by_cases he : eid ∈ eventIds
      · simp only [attributionLoop, hje, he, if_true] at h
        cases hmk : mk eid j with
        | error e => rw [hmk, except_bind_error] at h; exact absurd h (by simp)
        | ok a =>
          rw [hmk, except_bind_ok] at h
          rcases except_map_eq_ok h with ⟨r2, hloop, hr⟩
          simp only [hje, he, if_true, hmk]
          rw [show (Except.ok a : Except PyError EventAttribution).toOption = some a from rfl]
          rw [← hr]
          show a :: r2.1 = a :: _
          rw [ih hloop]
      · simp only [attributionLoop, hje, he, if_false] at h
        simp only [he, if_false]
        exact ih h

/-- If the judgment loop completes, its `processed_ids` set holds exactly the
initial set plus the response ids that are input ids. -/
theorem attributionLoop_ok_snd_mem {mk : Int → Judgment → Except PyError EventAttribution}
    {eventIds : List Int} {js : List Judgment} {p : List Int}
    {r : List EventAttribution × List Int}
    (h : attributionLoop mk eventIds js p = .ok r) (x : Int) :
    x ∈ r.2 ↔ x ∈ p ∨ (x ∈ js.filterMap (fun j => j.event_id) ∧ x ∈ eventIds) := by
  induction js generalizing p r with
  | nil =>
    simp only [attributionLoop, Except.ok.injEq] at h
    rw [← h]
    simp
  | cons j rest ih =>
    cases hje : j.event_id with
    | none =>
      simp only [attributionLoop, hje] at h
      rw [ih h]
      simp [List.filterMap_cons, hje]
    | some eid =>
      by_cases he : eid ∈ eventIds
      · simp only [attributionLoop, hje, he, if_true] at h
        cases hmk : mk eid j with
        | error e => rw [hmk, except_bind_error] at h; exact absurd h (by simp)
        | ok a =>
          rw [hmk, except_bind_ok] at h
          rcases except_map_eq_ok h with ⟨r2, hloop, hr⟩
          have hsnd : r.2 = r2.2 := by rw [← hr]
          rw [hsnd, ih hloop]
          simp only [List.filterMap_cons, hje, List.mem_cons]
          by_cases hp : eid ∈ p
          · simp only [hp, if_true]
            constructor
            · rintro (hx | ⟨hx, hx2⟩)
              · exact Or.inl hx
              · exact Or.inr ⟨Or.inr hx, hx2⟩
            · rintro (hx | ⟨hx | hx, hx2⟩)
              · exact Or.inl hx
              · exact Or.inl (hx ▸ hp)
              · exact Or.inr ⟨hx, hx2⟩
          · simp only [hp, if_false, List.mem_cons]
            constructor
            · rintro (⟨hx | hx⟩ | ⟨hx, hx2⟩)
              · exact Or.inr ⟨Or.inl hx, hx ▸ he⟩
              · exact Or.inl hx
              · exact Or.inr ⟨Or.inr hx, hx2⟩
            · rintro (hx | ⟨hx | hx, hx2⟩)
              · exact Or.inl (Or.inr hx)
              · exact Or.inl (Or.inl hx)
              · exact Or.inr ⟨hx, hx2⟩
      · simp only [attributionLoop, hje, he, if_false] at h
        rw [ih h]
        simp only [List.filterMap_cons, hje, List.mem_cons]
        constructor
        · rintro (hx | ⟨hx, hx2⟩)
          · exact Or.inl hx
          · exact Or.inr ⟨Or.inr hx, hx2⟩
        · rintro (hx | ⟨hx | hx, hx2⟩)
          · exact Or.inl hx
          · exact absurd (hx ▸ hx2) he
          · exact Or.inr ⟨hx, hx2⟩

/-- If the judgment loop completes, it holds one attribution per kept
judgment. -/
theorem attributionLoop_ok_length {mk : Int → Judgment → Except PyError EventAttribution}
    {eventIds : List Int} {js : List Judgment} {p : List Int}
    {r : List EventAttribution × List Int}
    (h : attributionLoop mk eventIds js p = .ok r) :
    r.1.length = ((js.filterMap (fun j => j.event_id)).filter (fun x => x ∈ eventIds)).length := by
  induction js generalizing p r with
  | nil =>
    simp only [attributionLoop, Except.ok.injEq] at h
    rw [← h]
    rfl
  | cons j rest ih =>
    rw [List.filterMap_cons]
    cases hje : j.event_id with
    | none =>
      simp only [attributionLoop, hje] at h
      exact ih h
    | some eid =>
      by_cases he : eid ∈ eventIds
      · simp only [attributionLoop, hje, he, if_true] at h
        cases hmk : mk eid j with
        | error e => rw [hmk, except_bind_error] at h; exact absurd h (by simp)
        | ok a =>
          rw [hmk, except_bind_ok] at h
          rcases except_map_eq_ok h with ⟨r2, hloop, hr⟩
          rw [← hr]
          simp [List.filter_cons, he, ih hloop]
      · simp only [attributionLoop, hje, he, if_false] at h
        rw [ih h]
        simp [List.filter_cons, he]

/-- If the judgment loop completes, the constructor succeeded on every kept
judgment. -/
theorem attributionLoop_ok_kept {mk : Int → Judgment → Except PyError EventAttribution}
    {eventIds : List Int} {js : List Judgment} {p : List Int}
    {r : List EventAttribution × List Int}
    (h : attributionLoop mk eventIds js p = .ok r) :
    ∀ j ∈ js, ∀ eid, j.event_id = some eid → eid ∈ eventIds →
      ∃ a, mk eid j = .ok a := by
  induction js generalizing p r with
  | nil => intro j hj; simp at hj
  | cons j0 rest ih =>
    intro j hj eid hje he
    rcases List.mem_cons.mp hj with rfl | hj2
    · simp only [attributionLoop, hje, he, if_true] at h
      cases hmk : mk eid j with
      | error e => rw [hmk, except_bind_error] at h; exact absurd h (by simp)
      | ok a => exact ⟨a, rfl⟩
    · cases hje0 : j0.event_id with
      | none =>
        simp only [attributionLoop, hje0] at h
        exact ih h j hj2 eid hje he
      | some eid0 =>
        by_cases he0 : eid0 ∈ eventIds
        · simp only [attributionLoop, hje0, he0, if_true] at h
          cases hmk : mk eid0 j0 with
          | error e => rw [hmk, except_bind_error] at h; exact absurd h (by simp)
          | ok a =>
            rw [hmk, except_bind_ok] at h
            rcases except_map_eq_ok h with ⟨r2, hloop, _⟩
            exact ih hloop j hj2 eid hje he
        · simp only [attributionLoop, hje0, he0, if_false] at h
          exact ih h j hj2 eid hje he

/-- A character resolution that completes always yields `character_id =
None` — the lookup that could produce an id does not exist. -/
theorem syncCharacterId_ok {name : Option String} {cid : Option Int}
    (h : syncCharacterId name = .ok cid) : cid = none := by
  cases name with
  | none => simpa [syncCharacterId] using h.symm
  | some n =>
    by_cases hn : n = ""
    · simp only [syncCharacterId, hn, if_true] at h
      simpa using h.symm
    · simp [syncCharacterId, hn, wikiCacheGetCharacterId] at h

theorem batchCharacterId_ok {name : Option String} {cid : Option Int}
    (h : batchCharacterId name = .ok cid) : cid = none := by
  cases name with
  | none => simpa [batchCharacterId] using h.symm
  | some n =>
    by_cases hn : n = ""
    · simp only [batchCharacterId, batchGetCharacterId, hn, if_true] at h
      simpa using h.symm
    · simp [batchCharacterId, batchGetCharacterId, hn, wikiCacheGetCharacterId] at h

/-- Characterization of a completed sync loop body. -/
theorem syncJudgmentAttribution_ok {eid : Int} {j : Judgment} {a : EventAttribution}
    (h : syncJudgmentAttribution eid j = .ok a) :
    a.character_id = none ∧ a.event_id = eid ∧
    a.confidence = j.confidence.getD (1 / 2) ∧
    a.event_type = j.event_type.getD "other" ∧
    (a.event_type = "false_positive" → a.auto_accepted = false ∧ a.needs_review = true) ∧
    (a.event_type ≠ "false_positive" →
      a.auto_accepted = decide (AUTO_ACCEPT_THRESHOLD ≤ a.confidence) ∧
      a.needs_review = decide (a.confidence < AUTO_ACCEPT_THRESHOLD)) := by
  simp only [syncJudgmentAttribution] at h
  cases hcid : syncCharacterId j.character_name with
  | error e => rw [hcid, except_map_error] at h; exact absurd h (by simp)
  | ok cid =>
    have hc := syncCharacterId_ok hcid
    subst hc
    rw [hcid, except_map_ok, Except.ok.injEq] at h
    subst h
    refine ⟨rfl, rfl, rfl, rfl, ?_, ?_⟩
    · intro hfp
      have hty : j.event_type.getD "other" = "false_positive" := hfp
      simp [hty]
    · intro hfp
      have hty : ¬(j.event_type.getD "other" = "false_positive") := hfp
      simp [hty]

/-- Characterization of a completed batch loop body: the character can never
resolve, so the attribution is never auto-accepted and always review-flagged. -/
theorem batchJudgmentAttribution_ok {eid : Int} {j : Judgment} {a : EventAttribution}
    (h : batchJudgmentAttribution eid j = .ok a) :
    a.character_id = none ∧ a.event_id = eid ∧
    a.confidence = j.confidence.getD (1 / 2) ∧
    a.event_type = j.event_type.getD "other" ∧
    a.auto_accepted = false ∧ a.needs_review = true := by
  simp only [batchJudgmentAttribution] at h
  cases hcid : batchCharacterId j.character_name with
  | error e => rw [hcid, except_map_error] at h; exact absurd h (by simp)
  | ok cid =>
    have hc := batchCharacterId_ok hcid
    subst hc
    rw [hcid, except_map_ok, Except.ok.injEq] at h
    subst h
    refine ⟨rfl, rfl, rfl, rfl, ?_, ?_⟩ <;>
      by_cases hty : j.event_type.getD "other" = "false_positive" <;> simp [hty]

/-- Every attribution returned by a completed sync parse is built from a
response judgment, synthesized for an unprocessed event, or a failed-parse
fallback. -/
theorem mem_parseAttributionResponse_ok {respJson : Option AttrData}
    {events : List InputEvent} {attrs : List EventAttribution} {a : EventAttribution}
    (h : parseAttributionResponse respJson events = .ok attrs) (ha : a ∈ attrs) :
    (∃ eid j, j ∈ (respJson.map (fun d => d.attributions)).getD [] ∧
      j.event_id = some eid ∧ syncJudgmentAttribution eid j = .ok a) ∨
      (∃ i, a = notProcessedAttribution i) ∨ ∃ i, a = failedParseAttribution i := by
  cases respJson with
  | none =>
    simp only [parseAttributionResponse, Except.ok.injEq] at h
    rw [← h] at ha
    rcases List.mem_map.mp ha with ⟨e, _, he⟩
    exact Or.inr (Or.inr ⟨e.id, he.symm⟩)
  | some data =>
    simp only [parseAttributionResponse] at h
    rcases except_map_eq_ok h with ⟨r, hloop, hattrs⟩
    rw [← hattrs] at ha
    rcases List.mem_append.mp ha with hm | hm
    · rw [attributionLoop_ok_fst hloop] at hm
      rcases List.mem_filterMap.mp hm with ⟨j, hj, hja⟩
      cases hje : j.event_id with
      | none => rw [hje] at hja; simp at hja
      | some eid =>
        rw [hje] at hja
        by_cases he : eid ∈ events.map (fun e => e.id)
        · simp only [he, if_true] at hja
          refine Or.inl ⟨eid, j, by simpa using hj, hje, ?_⟩
          cases hmk : syncJudgmentAttribution eid j with
          | error e => rw [hmk] at hja; simp [Except.toOption] at hja
          | ok b =>
            rw [hmk] at hja
            simp only [Except.toOption, Option.some_inj] at hja
            rw [hja]
        · simp [he] at hja
    · rcases List.mem_map.mp hm with ⟨e, _, he⟩
      exact Or.inr (Or.inl ⟨e.id, he.symm⟩)

/-- Every attribution returned by a completed batch parse is built from a
response judgment or synthesized for an unprocessed event. -/
theorem mem_parseEventAttributionResult_ok {respJson : Option AttrData}
    {eventIds : List Int} {attrs : List EventAttribution} {a : EventAttribution}
    (h : parseEventAttributionResult respJson eventIds = .ok attrs) (ha : a ∈ attrs) :
    (∃ eid j, j ∈ (respJson.map (fun d => d.attributions)).getD [] ∧
      j.event_id = some eid ∧ batchJudgmentAttribution eid j = .ok a) ∨
      ∃ i, a = notProcessedAttribution i := by
  simp only [parseEventAttributionResult] at h
  cases respJson with
  | none =>
    rcases except_map_eq_ok h with ⟨r, hr0, hattrs⟩
    simp only [Except.ok.injEq] at hr0
    rw [← hattrs, ← hr0] at ha
    simp only [List.nil_append] at ha
    rcases List.mem_map.mp ha with ⟨i, _, hi⟩
    exact Or.inr ⟨i, hi.symm⟩
  | some data =>
    rcases except_map_eq_ok h with ⟨r, hloop, hattrs⟩
    rw [← hattrs] at ha
    rcases List.mem_append.mp ha with hm | hm
    · rw [attributionLoop_ok_fst hloop] at hm
      rcases List.mem_filterMap.mp hm with ⟨j, hj, hja⟩
      cases hje : j.event_id with
      | none => rw [hje] at hja; simp at hja
      | some eid =>
        rw [hje] at hja
        by_cases he : eid ∈ eventIds
        · simp only [he, if_true] at hja
          refine Or.inl ⟨eid, j, by simpa using hj, hje, ?_⟩
          cases hmk : batchJudgmentAttribution eid j with
          | error e => rw [hmk] at hja; simp [Except.toOption] at hja
          | ok b =>
            rw [hmk] at hja
            simp only [Except.toOption, Option.some_inj] at hja
            rw [hja]
        · simp [he] at hja
    · rcases List.mem_map.mp hm with ⟨i, _, hi⟩
      exact Or.inr ⟨i, hi.symm⟩

/-! ## Concrete fixtures for counterexamples and witnesses -/

/-- A fully populated judgment with a (crash-inducing) character name. -/
def mkJudgment (eid : Int) (conf : ℚ) (name ty : String) : Judgment :=
  { event_id := some eid, confidence := some conf, character_name := some name,
    event_type := some ty, parsed_data := [], reasoning := some "r" }

/-- A judgment with no character name: the only kind both parsers complete
on (besides an empty-string name). -/
def unnamedJudgment (eid : Int) (conf : ℚ) (ty : String) : Judgment :=
  { event_id := some eid, confidence := some conf, character_name := none,
    event_type := some ty, parsed_data := [], reasoning := some "r" }

def ev1 : InputEvent := { id := 1, raw_text := "[Erin Level 5]", surrounding_text := "ctx" }

def ev2 : InputEvent := { id := 2, raw_text := "[Ghost Level 9]", surrounding_text := "" }

/-- High-confidence non-false-positive judgment with no character name:
both parsers complete on it and its character is unresolved
(`character_id = None`) — the decisive input for C1/C2. -/
def hiConfUnnamed : AttrData :=
  { attributions := [unnamedJudgment 1 (95 / 100) "level_up"] }

/-- The same judgment but naming the character `"Ghost"`: reaching the
nonexistent `get_character_id` makes both parsers raise. -/
def hiConfNamed : AttrData :=
  { attributions := [mkJudgment 1 (95 / 100) "Ghost" "level_up"] }

/-- The sync attribution produced for `unnamedJudgment 1 (95/100)
"level_up"`: auto-accepted on confidence alone. -/
def hiConfSyncAttr : EventAttribution :=
  { event_id := 1, event_type := "level_up", character_name := none, character_id := none,
    parsed_data := [], confidence := 95 / 100, reasoning := "r",
    auto_accepted := true, needs_review := false }

/-- The batch attribution produced for the same judgment: review-flagged
because no character is resolved. -/
def hiConfBatchAttr : EventAttribution :=
  { event_id := 1, event_type := "level_up", character_name := none, character_id := none,
    parsed_data := [], confidence := 95 / 100, reasoning := "r",
    auto_accepted := false, needs_review := true }

/-! ## C1 -/

/-- C1 (counterexample): in the synchronous path
(`EventAttributor._parse_attribution_response`), a judgment with
`event_type = "level_up"` and confidence 0.95 whose character is unresolved
(no character name, so `character_id = None` — a non-empty name would
instead crash the lookup) is still auto-accepted and not flagged for
review, contradicting the claim that an unresolved character forces review
in both paths. -/
theorem C1_counterexample :
    (parseAttributionResponse (some hiConfUnnamed) [ev1]).map
      (List.map (fun a => (a.event_type, a.character_id, a.auto_accepted, a.needs_review))) =
      .ok [("level_up", none, true, false)] := by
  norm_num [parseAttributionResponse, attributionLoop, syncJudgmentAttribution,
    syncCharacterId, except_bind_ok, except_map_ok, hiConfUnnamed, unnamedJudgment, ev1,
    AUTO_ACCEPT_THRESHOLD]
  decide

/-- C1 (amended): the batch-results path
(`BatchProcessor._parse_event_attribution_result`) requires both confidence
≥ 0.93 and a resolved character for auto-acceptance — and since the
character lookup method does not exist, a character id can never be
resolved: judgments naming a character crash the parser (`AttributeError`),
every attribution of a completed batch parse has `character_id = None`, and
the batch parser therefore never auto-accepts and always flags review.  The
synchronous path (`EventAttributor._parse_attribution_response`)
auto-accepts on confidence ≥ 0.93 alone, its unresolved character
notwithstanding. -/
theorem C1_amended (respJson : Option AttrData) (events : List InputEvent)
    (eventIds : List Int) :
    (∀ attrs, parseEventAttributionResult respJson eventIds = .ok attrs →
      ∀ a ∈ attrs, a.character_id = none ∧ a.auto_accepted = false ∧ a.needs_review = true) ∧
    (∀ attrs, parseAttributionResponse respJson events = .ok attrs →
      ∀ a ∈ attrs, a.character_id = none ∧ (a.event_type ≠ "false_positive" →
        ((a.auto_accepted = true) ↔ AUTO_ACCEPT_THRESHOLD ≤ a.confidence))) := by
  constructor
  · intro attrs h a ha
    rcases mem_parseEventAttributionResult_ok h ha with ⟨eid, j, _, _, hmk⟩ | ⟨i, rfl⟩
    · have hf := batchJudgmentAttribution_ok hmk
      exact ⟨hf.1, hf.2.2.2.2.1, hf.2.2.2.2.2⟩
    · exact ⟨rfl, rfl, rfl⟩
  · intro attrs h a ha
    rcases mem_parseAttributionResponse_ok h ha with ⟨eid, j, _, _, hmk⟩ | ⟨i, rfl⟩ | ⟨i, rfl⟩
    · have hf := syncJudgmentAttribution_ok hmk
      refine ⟨hf.1, fun hfp => ?_⟩
      rw [(hf.2.2.2.2.2 hfp).1]
      simp
    · refine ⟨rfl, fun _ => ?_⟩
      norm_num [notProcessedAttribution, AUTO_ACCEPT_THRESHOLD]
    · refine ⟨rfl, fun _ => ?_⟩
      norm_num [failedParseAttribution, AUTO_ACCEPT_THRESHOLD]

/-- C1 (witness): the amended statement instantiated at the concrete
high-confidence unresolved-character input. -/
theorem C1_amended_witness :
    (hiConfBatchAttr.character_id = none ∧ hiConfBatchAttr.auto_accepted = false ∧
      hiConfBatchAttr.needs_review = true) ∧
    (hiConfSyncAttr.character_id = none ∧ (hiConfSyncAttr.event_type ≠ "false_positive" →
      ((hiConfSyncAttr.auto_accepted = true) ↔
        AUTO_ACCEPT_THRESHOLD ≤ hiConfSyncAttr.confidence))) :=
  ⟨(C1_amended (some hiConfUnnamed) [ev1] [1]).1 [hiConfBatchAttr]
      (by
        norm_num [parseEventAttributionResult, attributionLoop, batchJudgmentAttribution,
          batchCharacterId, except_bind_ok, except_map_ok, hiConfUnnamed, unnamedJudgment,
          hiConfBatchAttr])
      hiConfBatchAttr (by simp),
   (C1_amended (some hiConfUnnamed) [ev1] [1]).2 [hiConfSyncAttr]
      (by
        norm_num [parseAttributionResponse, attributionLoop, syncJudgmentAttribution,
          syncCharacterId, except_bind_ok, except_map_ok, hiConfUnnamed, unnamedJudgment,
          ev1, hiConfSyncAttr, AUTO_ACCEPT_THRESHOLD]
        decide)
      hiConfSyncAttr (by simp)⟩

/-! ## C2 -/

/-- Outside the divergent zone — a judgment both parsers complete on
(character name absent or empty) that is non-false-positive with confidence
≥ 0.93 — the two loop bodies agree: they crash identically on named
judgments and assign identical flags otherwise. -/
theorem syncBatch_judgment_eq (eid : Int) (j : Judgment)
    (hc : j.event_type.getD "other" = "false_positive" ∨
      j.confidence.getD (1 / 2) < AUTO_ACCEPT_THRESHOLD ∨
      ∃ n, j.character_name = some n ∧ n ≠ "") :
    (syncJudgmentAttribution eid j).map
        (fun a => (a.event_id, a.auto_accepted, a.needs_review)) =
      (batchJudgmentAttribution eid j).map
        (fun a => (a.event_id, a.auto_accepted, a.needs_review)) := by
  have hflags : j.event_type.getD "other" = "false_positive" ∨
      j.confidence.getD (1 / 2) < AUTO_ACCEPT_THRESHOLD →
      (if j.event_type.getD "other" = "false_positive" then (false, true)
        else (decide (AUTO_ACCEPT_THRESHOLD ≤ j.confidence.getD (1 / 2)),
          decide (j.confidence.getD (1 / 2) < AUTO_ACCEPT_THRESHOLD))) = (false, true) := by
    intro hcc
    rcases hcc with hfp | hlt
    · simp [hfp]
    · by_cases hfp : j.event_type.getD "other" = "false_positive"
      · simp [hfp]
      · rw [if_neg hfp, decide_eq_false (not_le.mpr hlt), decide_eq_true hlt]
  cases hname : j.character_name with
  | none =>
    have hcc : j.event_type.getD "other" = "false_positive" ∨
        j.confidence.getD (1 / 2) < AUTO_ACCEPT_THRESHOLD := by
      rcases hc with h | h | ⟨n, hn, _⟩
      · exact Or.inl h
      · exact Or.inr h
      · rw [hname] at hn; exact absurd hn (by simp)
    simp only [syncJudgmentAttribution, batchJudgmentAttribution, hname, syncCharacterId,
      batchCharacterId, except_map_ok]
    rw [hflags hcc]
    by_cases hfp : j.event_type.getD "other" = "false_positive" <;> simp [hfp]
  | some n =>
    by_cases hn : n = ""
    · have hcc : j.event_type.getD "other" = "false_positive" ∨
          j.confidence.getD (1 / 2) < AUTO_ACCEPT_THRESHOLD := by
        rcases hc with h | h | ⟨n2, hn2, hne⟩
        · exact Or.inl h
        · exact Or.inr h
        · rw [hname] at hn2
          exact absurd ((Option.some_inj.mp hn2).symm.trans hn) hne
      simp only [syncJudgmentAttribution, batchJudgmentAttribution, hname, syncCharacterId,
        batchCharacterId, batchGetCharacterId, hn, if_true, except_map_ok]
      rw [hflags hcc]
      by_cases hfp : j.event_type.getD "other" = "false_positive" <;> simp [hfp]
    · simp only [syncJudgmentAttribution, batchJudgmentAttribution, hname, syncCharacterId,
        batchCharacterId, batchGetCharacterId, hn, if_false, wikiCacheGetCharacterId,
        except_map_error]

theorem except_map_comp_eq {x y : Except ε α} {g : α → β}
    (h : x.map g = y.map g) (f : β → γ) :
    x.map (fun a => f (g a)) = y.map (fun a => f (g a)) := by
  rw [← except_map_map g f x, ← except_map_map g f y, h]

/-- Lifting `syncBatch_judgment_eq` through the judgment loop. -/
theorem syncBatch_loop_eq (eventIds : List Int) (js : List Judgment) (p : List Int)
    (hc : ∀ j ∈ js, j.event_type.getD "other" = "false_positive" ∨
      j.confidence.getD (1 / 2) < AUTO_ACCEPT_THRESHOLD ∨
      ∃ n, j.character_name = some n ∧ n ≠ "") :
    (attributionLoop syncJudgmentAttribution eventIds js p).map
        (fun r => (r.1.map (fun a => (a.event_id, a.auto_accepted, a.needs_review)), r.2)) =
      (attributionLoop batchJudgmentAttribution eventIds js p).map
        (fun r => (r.1.map (fun a => (a.event_id, a.auto_accepted, a.needs_review)), r.2)) := by
  induction js generalizing p with
  | nil => rfl
  | cons j rest ih =>
    have hcrest : ∀ j2 ∈ rest, j2.event_type.getD "other" = "false_positive" ∨
        j2.confidence.getD (1 / 2) < AUTO_ACCEPT_THRESHOLD ∨
        ∃ n, j2.character_name = some n ∧ n ≠ "" :=
      fun j2 hj2 => hc j2 (List.mem_cons_of_mem _ hj2)
    have hj := syncBatch_judgment_eq 0 j (hc j (List.mem_cons_self _ _))
    cases hje : j.event_id with
    | none =>
      simp only [attributionLoop, hje]
      exact ih p hcrest
    | some eid =>
      by_cases he : eid ∈ eventIds
      · have hjeid := syncBatch_judgment_eq eid j (hc j (List.mem_cons_self _ _))
        simp only [attributionLoop, hje, he, if_true]
        cases hs : syncJudgmentAttribution eid j with
        | error e =>
          cases hb : batchJudgmentAttribution eid j with
          | error e2 =>
            have : e = e2 := by
              rw [hs, hb, except_map_error, except_map_error] at hjeid
              exact (Except.error.injEq _ _).mp hjeid
            rw [this, except_bind_error, except_bind_error]
          | ok b =>
            rw [hs, hb, except_map_error, except_map_ok] at hjeid
            exact absurd hjeid (by simp)
        | ok a =>
          cases hb : batchJudgmentAttribution eid j with
          | error e2 =>
            rw [hs, hb, except_map_ok, except_map_error] at hjeid
            exact absurd hjeid (by simp)
          | ok b =>
            have htr : (a.event_id, a.auto_accepted, a.needs_review) =
                (b.event_id, b.auto_accepted, b.needs_review) := by
              rw [hs, hb, except_map_ok, except_map_ok] at hjeid
              exact (Except.ok.injEq _ _).mp hjeid
            rw [except_bind_ok, except_bind_ok, except_map_map, except_map_map]
            simp only [List.map_cons]
            rw [htr]
            have hih := ih (if eid ∈ p then p else eid :: p) hcrest
            exact except_map_comp_eq hih
              (fun pr => ((b.event_id, b.auto_accepted, b.needs_review) :: pr.1, pr.2))
      · simp only [attributionLoop, hje, he, if_false]
        exact ih p hcrest

/-- C2 (counterexample): on the very same judgment (`event_type =
"level_up"`, confidence 0.95, unresolved character — no name given, a
non-empty name would crash both parsers), the synchronous parser returns
`auto_accepted ∧ ¬needs_review` while the batch parser returns
`¬auto_accepted ∧ needs_review`: the two processing modes do not assign
identical flags. -/
theorem C2_counterexample :
    (parseAttributionResponse (some hiConfUnnamed) [ev1]).map
        (List.map (fun a => (a.auto_accepted, a.needs_review))) = .ok [(true, false)] ∧
    (parseEventAttributionResult (some hiConfUnnamed) [1]).map
        (List.map (fun a => (a.auto_accepted, a.needs_review))) = .ok [(false, true)] := by
  constructor
  · norm_num [parseAttributionResponse, attributionLoop, syncJudgmentAttribution,
      syncCharacterId, except_bind_ok, except_map_ok, hiConfUnnamed, unnamedJudgment, ev1,
      AUTO_ACCEPT_THRESHOLD]
    decide
  · norm_num [parseEventAttributionResult, attributionLoop, batchJudgmentAttribution,
      batchCharacterId, except_bind_ok, except_map_ok, hiConfUnnamed, unnamedJudgment]

/-- C2 (amended): the two parsers agree on every judgment except those in
the divergent zone — completed judgments (character name absent or empty)
with `event_type ≠ false_positive` and confidence ≥ 0.93, where sync
auto-accepts but batch flags for review.  Outside that zone they agree
exactly: judgments naming a character crash both parsers with the same
`AttributeError`, and all other judgments get identical flags, so the two
parses' id/flag outcomes (including the error outcome) coincide. -/
theorem C2_amended (respJson : Option AttrData) (events : List InputEvent)
    (h : ∀ j ∈ (respJson.map (fun d => d.attributions)).getD [],
      j.event_type.getD "other" = "false_positive" ∨
      j.confidence.getD (1 / 2) < AUTO_ACCEPT_THRESHOLD ∨
      ∃ n, j.character_name = some n ∧ n ≠ "") :
    (parseAttributionResponse respJson events).map
        (List.map (fun a => (a.event_id, a.auto_accepted, a.needs_review))) =
      (parseEventAttributionResult respJson (events.map (fun e => e.id))).map
        (List.map (fun a => (a.event_id, a.auto_accepted, a.needs_review))) := by
  cases respJson with
  | none =>
    simp [parseAttributionResponse, parseEventAttributionResult, except_map_ok,
      failedParseAttribution, notProcessedAttribution, List.map_map, Function.comp]
  | some data =>
    have h2 : ∀ j ∈ data.attributions,
        j.event_type.getD "other" = "false_positive" ∨
        j.confidence.getD (1 / 2) < AUTO_ACCEPT_THRESHOLD ∨
        ∃ n, j.character_name = some n ∧ n ≠ "" := fun j hj => h j (by simpa using hj)
    have hloop := syncBatch_loop_eq (events.map (fun e => e.id)) data.attributions [] h2
    simp only [parseAttributionResponse, parseEventAttributionResult]
    rw [except_map_map, except_map_map]
    have e1 : ∀ r : List EventAttribution × List Int,
        ((r.1 ++ (events.filter (fun e => !(e.id ∈ r.2 : Bool))).map
            (fun e => notProcessedAttribution e.id)).map
          (fun a => (a.event_id, a.auto_accepted, a.needs_review))) =
        ((r.1.map (fun a => (a.event_id, a.auto_accepted, a.needs_review)), r.2).1 ++
          (events.filter (fun e =>
            !(e.id ∈ ((r.1.map (fun a => (a.event_id, a.auto_accepted, a.needs_review)), r.2)).2 : Bool))).map
            (fun e => ((e.id, false, true) : Int × Bool × Bool))) := by
      intro r
      rw [List.map_append, List.map_map]
      rfl
    have e2 : ∀ r : List EventAttribution × List Int,
        ((r.1 ++ ((events.map (fun e => e.id)).filter (fun i => !(i ∈ r.2 : Bool))).map
            notProcessedAttribution).map
          (fun a => (a.event_id, a.auto_accepted, a.needs_review))) =
        ((r.1.map (fun a => (a.event_id, a.auto_accepted, a.needs_review)), r.2).1 ++
          (events.filter (fun e =>
            !(e.id ∈ ((r.1.map (fun a => (a.event_id, a.auto_accepted, a.needs_review)), r.2)).2 : Bool))).map
            (fun e => ((e.id, false, true) : Int × Bool × Bool))) := by
      intro r
      rw [List.map_append, List.map_map, List.filter_map, List.map_map]
      rfl
    simp only [e1, e2]
    exact except_map_comp_eq hloop
      (fun pr => pr.1 ++ (events.filter (fun e => !(e.id ∈ pr.2 : Bool))).map
        (fun e => ((e.id, false, true) : Int × Bool × Bool)))

/-- A low-confidence unnamed judgment: both parsers complete and agree. -/
def lowConfUnnamed : AttrData :=
  { attributions := [unnamedJudgment 1 (1 / 2) "level_up"] }

/-- C2 (witness): the amended equivalence at a concrete agreeing input. -/
theorem C2_amended_witness :
    (parseAttributionResponse (some lowConfUnnamed) [ev1]).map
        (List.map (fun a => (a.event_id, a.auto_accepted, a.needs_review))) =
      (parseEventAttributionResult (some lowConfUnnamed) ([ev1].map (fun e => e.id))).map
        (List.map (fun a => (a.event_id, a.auto_accepted, a.needs_review))) :=
  C2_amended (some lowConfUnnamed) [ev1]
    (by
      intro j hj
      right; left
      have hj2 : j = unnamedJudgment 1 (1 / 2) "level_up" := by
        simpa [lowConfUnnamed] using hj
      subst hj2
      norm_num [unnamedJudgment, AUTO_ACCEPT_THRESHOLD])

/-! ## C3 -/

/-- A high-confidence false-positive judgment naming a character: the
claim's failing input. -/
def fpJudgment : Judgment := mkJudgment 1 (99 / 100) "Erin" "false_positive"

/-- A high-confidence false-positive judgment with no character name: the
only kind of false-positive judgment the parsers complete on. -/
def fpUnnamedJudgment : Judgment := unnamedJudgment 1 (99 / 100) "false_positive"

/-- The attribution the sync parser produces for `fpUnnamedJudgment`. -/
def fpUnnamedAttr : EventAttribution :=
  { event_id := 1, event_type := "false_positive", character_name := none,
    character_id := none, parsed_data := [], confidence := 99 / 100, reasoning := "r",
    auto_accepted := false, needs_review := true }

/-- C3: the false-positive-always-review rule is the code's own stated
intent ("False positives always need review", event_attributor.py lines
323-324) and holds on every attribution either parser actually returns —
but the nonexistent `wiki_cache.get_character_id` call precedes the
false-positive branch, so a false-positive judgment *naming* a character
(the failing input `fpJudgment`, name `"Erin"`) makes both parsers raise
`AttributeError` instead of producing the review-flagged attribution the
claim promises. -/
theorem C3_false_positive_review (respJson : Option AttrData)
    (events : List InputEvent) (eventIds : List Int) :
    (parseAttributionResponse (some { attributions := [fpJudgment] }) [ev1] =
      .error (.attributeError "get_character_id")) ∧
    (parseEventAttributionResult (some { attributions := [fpJudgment] }) [1] =
      .error (.attributeError "get_character_id")) ∧
    (∀ attrs, parseAttributionResponse respJson events = .ok attrs →
      ∀ a ∈ attrs, a.event_type = "false_positive" →
        a.auto_accepted = false ∧ a.needs_review = true) ∧
    (∀ attrs, parseEventAttributionResult respJson eventIds = .ok attrs →
      ∀ a ∈ attrs, a.event_type = "false_positive" →
        a.auto_accepted = false ∧ a.needs_review = true) := by
  refine ⟨?_, ?_, ?_, ?_⟩
  · rfl
  · rfl
  · intro attrs h a ha hfp
    rcases mem_parseAttributionResponse_ok h ha with ⟨eid, j, _, _, hmk⟩ | ⟨i, rfl⟩ | ⟨i, rfl⟩
    · exact (syncJudgmentAttribution_ok hmk).2.2.2.2.1 hfp
    · exact ⟨rfl, rfl⟩
    · exact ⟨rfl, rfl⟩
  · intro attrs h a ha _
    rcases mem_parseEventAttributionResult_ok h ha with ⟨eid, j, _, _, hmk⟩ | ⟨i, rfl⟩
    · have hf := batchJudgmentAttribution_ok hmk
      exact ⟨hf.2.2.2.2.1, hf.2.2.2.2.2⟩
    · exact ⟨rfl, rfl⟩

/-- C3 (witness): a confidence-0.99 unnamed false-positive judgment is
review-flagged by the synchronous parser. -/
theorem C3_false_positive_review_witness :
    fpUnnamedAttr.auto_accepted = false ∧ fpUnnamedAttr.needs_review = true :=
  (C3_false_positive_review (some { attributions := [fpUnnamedJudgment] }) [ev1] [1]).2.2.1
    [fpUnnamedAttr]
    (by
      norm_num [parseAttributionResponse, attributionLoop, syncJudgmentAttribution,
        syncCharacterId, except_bind_ok, except_map_ok, fpUnnamedJudgment, unnamedJudgment,
        ev1, fpUnnamedAttr])
    fpUnnamedAttr (by simp) (by norm_num [fpUnnamedAttr])

/-! ## C4 -/

/-- C4: every attribution either parser actually returns — judgments parsed
from a completed response, events absent from the response, responses with
no parseable JSON — and every attribution of the `AIError` fallback of
`attribute_events` has exactly one of `auto_accepted` / `needs_review` set.
(Paths that raise construct no attribution at all.) -/
theorem C4_xor_disposition (respJson : Option AttrData) (events : List InputEvent)
    (eventIds : List Int) (msg : String) :
    (∀ attrs, parseAttributionResponse respJson events = .ok attrs →
      ∀ a ∈ attrs, Bool.xor a.auto_accepted a.needs_review = true) ∧
    (∀ attrs, parseEventAttributionResult respJson eventIds = .ok attrs →
      ∀ a ∈ attrs, Bool.xor a.auto_accepted a.needs_review = true) ∧
    (∀ a ∈ attributeEventsFailedBatch events msg,
      Bool.xor a.auto_accepted a.needs_review = true) := by
  refine ⟨?_, ?_, ?_⟩
  · intro attrs h a ha
    rcases mem_parseAttributionResponse_ok h ha with ⟨eid, j, _, _, hmk⟩ | ⟨i, rfl⟩ | ⟨i, rfl⟩
    · have hf := syncJudgmentAttribution_ok hmk
      by_cases hfp : a.event_type = "false_positive"
      · have := hf.2.2.2.2.1 hfp
        rw [this.1, this.2]
        rfl
      · have := hf.2.2.2.2.2 hfp
        rw [this.1, this.2]
        rcases le_or_lt AUTO_ACCEPT_THRESHOLD a.confidence with hle | hlt
        · simp [hle, not_lt.mpr hle]
        · simp [not_le.mpr hlt, hlt]
    · rfl
    · rfl
  · intro attrs h a ha
    rcases mem_parseEventAttributionResult_ok h ha with ⟨eid, j, _, _, hmk⟩ | ⟨i, rfl⟩
    · have hf := batchJudgmentAttribution_ok hmk
      rw [hf.2.2.2.2.1, hf.2.2.2.2.2]
      rfl
    · rfl
  · intro a ha
    rcases List.mem_map.mp ha with ⟨e, _, rfl⟩
    rfl

/-- C4 (witness): the disposition invariant at the concrete auto-accepted
sync attribution. -/
theorem C4_xor_disposition_witness :
    Bool.xor hiConfSyncAttr.auto_accepted hiConfSyncAttr.needs_review = true :=
  (C4_xor_disposition (some hiConfUnnamed) [ev1] [1] "boom").1 [hiConfSyncAttr]
    (by
      norm_num [parseAttributionResponse, attributionLoop, syncJudgmentAttribution,
        syncCharacterId, except_bind_ok, except_map_ok, hiConfUnnamed, unnamedJudgment,
        ev1, hiConfSyncAttr, AUTO_ACCEPT_THRESHOLD]
      decide)
    hiConfSyncAttr (by simp)

/-! ## C5 -/

/-- Metadata of a two-request job: unit `attr_1` owns event 1, unit
`attr_2` owns event 2. -/
def twoUnitMeta : String → Option RequestMetadata := fun cid =>
  if cid = "attr_1" then some { chapter_id := some 10, event_ids := [1] }
  else if cid = "attr_2" then some { chapter_id := some 11, event_ids := [2] }
  else none

/-- Results of that job: unit 1 succeeded (with an unnamed judgment, which
the parser completes on), unit 2 errored. -/
def oneErroredResults : List BatchResult :=
  [{ custom_id := "attr_1", result_type := BatchResultType.succeeded,
     parsed_json := some hiConfUnnamed, error_message := none },
   { custom_id := "attr_2", result_type := BatchResultType.errored,
     parsed_json := none, error_message := some "overloaded" }]

/-- C5 (counterexample): a job with one succeeded unit (event 1) and one
errored unit (event 2) completes its result loop but records exactly one
attribution — for event 1 only.  No review-flagged attribution carrying the
failure reason is recorded for event 2, contradicting the claim that every
event of a failed unit gets one (and hence the 100 = 97 + 3 attribution
count of the scenario). -/
theorem C5_counterexample :
    (processEventAttributionResults oneErroredResults twoUnitMeta).map
      (fun r => (r.2.map (fun a => a.event_id), r.1.errors)) = .ok ([1], 1) := rfl

/-- C5 (amended): per-result failures (errored/canceled/expired units)
never abort processing — every remaining result is still handled and the
failure is only counted in the error tally — but no attribution at all is
recorded for a failed unit's events: when every succeeded unit's parse
completes, result processing returns exactly the parses of the succeeded
results, so a 100-request job with 97 succeeded and 3 errored units yields
attributions only for the 97 succeeded units' events.  (A succeeded unit
whose judgments name a character instead crashes the whole loop, since the
character lookup method does not exist.) -/
theorem C5_amended (results : List BatchResult)
    (metadata : String → Option RequestMetadata)
    (okAttrs : BatchResult → List EventAttribution)
    (h : ∀ r ∈ results, r.result_type = BatchResultType.succeeded →
      parseEventAttributionResult r.parsed_json
        (((metadata r.custom_id).map (fun md => md.event_ids)).getD []) = .ok (okAttrs r)) :
    ∃ stats : BatchStats,
      processEventAttributionResults results metadata =
        .ok (stats, (results.filter
          (fun r => r.result_type = BatchResultType.succeeded)).flatMap okAttrs) ∧
      stats.errors = results.countP
        (fun r => !(r.result_type = BatchResultType.succeeded : Bool)) ∧
      stats.chapters_processed = results.countP
        (fun r => (r.result_type = BatchResultType.succeeded : Bool)) := by
  induction results with
  | nil =>
    exact ⟨{ chapters_processed := 0, events_processed := 0, auto_accepted := 0,
             flagged_review := 0, errors := 0 }, rfl, rfl, rfl⟩
  | cons r rest ih =>
    have hrest : ∀ r2 ∈ rest, r2.result_type = BatchResultType.succeeded →
        parseEventAttributionResult r2.parsed_json
          (((metadata r2.custom_id).map (fun md => md.event_ids)).getD []) = .ok (okAttrs r2) :=
      fun r2 hr2 => h r2 (List.mem_cons_of_mem _ hr2)
    rcases ih hrest with ⟨stats, hps, herr, hch⟩
    by_cases hr : r.result_type = BatchResultType.succeeded
    · refine ⟨{ chapters_processed := stats.chapters_processed + 1, events_processed := stats.events_processed + (((metadata r.custom_id).map (fun md => md.event_ids)).getD []).length, auto_accepted := stats.auto_accepted + (saveCounts (okAttrs r)).1, flagged_review := stats.flagged_review + (saveCounts (okAttrs r)).2, errors := stats.errors }, ?_, ?_, ?_⟩
      · simp only [processEventAttributionResults, hr, if_true]
        rw [h r (List.mem_cons_self _ _) hr, except_bind_ok, hps, except_map_ok]
        simp [List.filter_cons, List.flatMap_cons, hr]
      · simpa [List.countP_cons, hr] using herr
      · simp [List.countP_cons, hr, hch]
    · refine ⟨{ chapters_processed := stats.chapters_processed, events_processed := stats.events_processed, auto_accepted := stats.auto_accepted, flagged_review := stats.flagged_review, errors := stats.errors + 1 }, ?_, ?_, ?_⟩
      · simp only [processEventAttributionResults, hr, if_false]
        rw [hps, except_map_ok]
        congr 2
        simp [List.filter_cons, hr]
      · simp [List.countP_cons, hr, herr]
      · simpa [List.countP_cons, hr] using hch

/-- C5 (witness): the amended statement at the concrete one-errored job. -/
theorem C5_amended_witness :
    ∃ stats : BatchStats,
      processEventAttributionResults oneErroredResults twoUnitMeta =
        .ok (stats, (oneErroredResults.filter
          (fun r => r.result_type = BatchResultType.succeeded)).flatMap
            (fun _ => [hiConfBatchAttr])) ∧
      stats.errors = oneErroredResults.countP
        (fun r => !(r.result_type = BatchResultType.succeeded : Bool)) ∧
      stats.chapters_processed = oneErroredResults.countP
        (fun r => (r.result_type = BatchResultType.succeeded : Bool)) :=
  C5_amended oneErroredResults twoUnitMeta (fun _ => [hiConfBatchAttr])
    (by
      intro r hr hsucc
      rcases List.mem_cons.mp hr with rfl | hr2
      · norm_num [parseEventAttributionResult, attributionLoop, batchJudgmentAttribution,
          batchCharacterId, except_bind_ok, except_map_ok, hiConfUnnamed, unnamedJudgment,
          twoUnitMeta, hiConfBatchAttr, AUTO_ACCEPT_THRESHOLD]
      · rcases List.mem_cons.mp hr2 with rfl | hr3
        · exact absurd hsucc (by decide)
        · simp at hr3)

/-! ## C6 -/

theorem length_filter_split {α : Type} (p : α → Bool) (l : List α) :
    (l.filter p).length + (l.filter (fun a => !p a)).length = l.length := by
  induction l with
  | nil => rfl
  | cons x xs ih =>
    cases h : p x <;> simp [List.filter_cons, h] <;> omega

/-- Under distinct input ids and distinct response ids, a completed judgment
loop plus the unprocessed-synthesis pass touch each input id exactly once. -/
theorem attributionLoop_ok_total_length
    {mk : Int → Judgment → Except PyError EventAttribution}
    {ids : List Int} {js : List Judgment} {r : List EventAttribution × List Int}
    (h : attributionLoop mk ids js [] = .ok r)
    (hnd : ids.Nodup) (hjd : (js.filterMap (fun j => j.event_id)).Nodup) :
    r.1.length + (ids.filter (fun i => !(i ∈ r.2 : Bool))).length = ids.length := by
  have h1 : r.1.length =
      ((js.filterMap (fun j => j.event_id)).filter (fun x => x ∈ ids)).length :=
    attributionLoop_ok_length h
  have hPM : ∀ x : Int, x ∈ r.2 ↔
      x ∈ (js.filterMap (fun j => j.event_id)).filter (fun x => x ∈ ids) := by
    intro x
    rw [attributionLoop_ok_snd_mem h x]
    simp [List.mem_filter]
  have hfeq : ids.filter (fun i => !(i ∈ r.2 : Bool)) =
      ids.filter (fun i =>
        !(i ∈ (js.filterMap (fun j => j.event_id)).filter (fun x => x ∈ ids) : Bool)) :=
    List.filter_congr (fun x _ => by simp [hPM x])
  have hMnd : ((js.filterMap (fun j => j.event_id)).filter (fun x => x ∈ ids)).Nodup :=
    hjd.filter _
  have hsub : ∀ x ∈ (js.filterMap (fun j => j.event_id)).filter (fun x => x ∈ ids),
      x ∈ ids := by
    intro x hx
    have := (List.mem_filter.mp hx).2
    simpa using this
  have hcount : (ids.filter
      (fun i => (i ∈ (js.filterMap (fun j => j.event_id)).filter (fun x => x ∈ ids) : Bool))).length =
      ((js.filterMap (fun j => j.event_id)).filter (fun x => x ∈ ids)).length := by
    have hnd2 : (ids.filter
        (fun i => (i ∈ (js.filterMap (fun j => j.event_id)).filter (fun x => x ∈ ids) : Bool))).Nodup :=
      hnd.filter _
    have hset : (ids.filter
        (fun i => (i ∈ (js.filterMap (fun j => j.event_id)).filter (fun x => x ∈ ids) : Bool))).toFinset =
        ((js.filterMap (fun j => j.event_id)).filter (fun x => x ∈ ids)).toFinset := by
      ext x
      simp only [List.mem_toFinset, List.mem_filter]
      constructor
      · rintro ⟨hx1, hx2⟩
        simpa using hx2
      · intro hx
        refine ⟨?_, by simpa using hx⟩
        exact hsub x (List.mem_filter.mpr (by simpa using hx))
    calc (ids.filter
        (fun i => (i ∈ (js.filterMap (fun j => j.event_id)).filter (fun x => x ∈ ids) : Bool))).length
        = (ids.filter
            (fun i => (i ∈ (js.filterMap (fun j => j.event_id)).filter (fun x => x ∈ ids) : Bool))).toFinset.card :=
          (List.toFinset_card_of_nodup hnd2).symm
      _ = ((js.filterMap (fun j => j.event_id)).filter (fun x => x ∈ ids)).toFinset.card := by
          rw [hset]
      _ = ((js.filterMap (fun j => j.event_id)).filter (fun x => x ∈ ids)).length :=
          List.toFinset_card_of_nodup hMnd
  rw [h1, hfeq, ← hcount]
  exact length_filter_split _ ids

/-- A completed sync parse covers each input event, synthesizes the
review-flagged attribution for input ids absent from the response, and, with
duplicate-free ids, returns exactly one attribution per input event. -/
theorem parseAttributionResponse_some_ok {data : AttrData} {events : List InputEvent}
    {attrs : List EventAttribution}
    (h : parseAttributionResponse (some data) events = .ok attrs) :
    (∀ e ∈ events, ∃ a ∈ attrs, a.event_id = e.id) ∧
    (∀ e ∈ events, e.id ∉ data.attributions.filterMap (fun j => j.event_id) →
      notProcessedAttribution e.id ∈ attrs) ∧
    ((events.map (fun e => e.id)).Nodup →
      (data.attributions.filterMap (fun j => j.event_id)).Nodup →
      attrs.length = events.length) := by
  simp only [parseAttributionResponse] at h
  rcases except_map_eq_ok h with ⟨r, hloop, hattrs⟩
  have hsnd := fun x => attributionLoop_ok_snd_mem hloop x
  refine ⟨?_, ?_, ?_⟩
  · intro e he
    by_cases hm : e.id ∈ r.2
    · rcases (hsnd e.id).mp hm with hx | ⟨hjs, hev⟩
      · simp at hx
      · rcases List.mem_filterMap.mp hjs with ⟨j, hj, hje⟩
        rcases attributionLoop_ok_kept hloop j hj e.id hje hev with ⟨a, hmk⟩
        refine ⟨a, ?_, (syncJudgmentAttribution_ok hmk).2.1⟩
        rw [← hattrs]
        refine List.mem_append.mpr (Or.inl ?_)
        rw [attributionLoop_ok_fst hloop]
        refine List.mem_filterMap.mpr ⟨j, hj, ?_⟩
        rw [hje]
        simp [hev, hmk, Except.toOption]
    · refine ⟨notProcessedAttribution e.id, ?_, rfl⟩
      rw [← hattrs]
      refine List.mem_append.mpr (Or.inr ?_)
      exact List.mem_map.mpr ⟨e, List.mem_filter.mpr ⟨he, by simp [hm]⟩, rfl⟩
  · intro e he habs
    have hm : e.id ∉ r.2 := by
      intro hmem
      rcases (hsnd e.id).mp hmem with hx | ⟨hjs, _⟩
      · simp at hx
      · exact habs hjs
    rw [← hattrs]
    refine List.mem_append.mpr (Or.inr ?_)
    exact List.mem_map.mpr ⟨e, List.mem_filter.mpr ⟨he, by simp [hm]⟩, rfl⟩
  · intro hnd hjd
    have hlen : attrs.length = r.1.length +
        (events.filter (fun e => !(e.id ∈ r.2 : Bool))).length := by
      rw [← hattrs]
      simp
    have hmapfilter : (events.filter (fun e => !(e.id ∈ r.2 : Bool))).length =
        ((events.map (fun e => e.id)).filter (fun i => !(i ∈ r.2 : Bool))).length := by
      rw [← List.countP_eq_length_filter, ← List.countP_eq_length_filter, List.countP_map]
      rfl
    rw [hlen, hmapfilter, attributionLoop_ok_total_length hloop hnd hjd,
      List.length_map]
  
/-- A completed batch parse covers each input id, synthesizes the
review-flagged attribution for ids absent from the response, and, with
duplicate-free ids, returns exactly one attribution per input id. -/
theorem parseEventAttributionResult_some_ok {data : AttrData} {eventIds : List Int}
    {attrs : List EventAttribution}
    (h : parseEventAttributionResult (some data) eventIds = .ok attrs) :
    (∀ i ∈ eventIds, ∃ a ∈ attrs, a.event_id = i) ∧
    (∀ i ∈ eventIds, i ∉ data.attributions.filterMap (fun j => j.event_id) →
      notProcessedAttribution i ∈ attrs) ∧
    (eventIds.Nodup → (data.attributions.filterMap (fun j => j.event_id)).Nodup →
      attrs.length = eventIds.length) := by
  simp only [parseEventAttributionResult] at h
  rcases except_map_eq_ok h with ⟨r, hloop, hattrs⟩
  have hsnd := fun x => attributionLoop_ok_snd_mem hloop x
  refine ⟨?_, ?_, ?_⟩
  · intro i hi
    by_cases hm : i ∈ r.2
    · rcases (hsnd i).mp hm with hx | ⟨hjs, hev⟩
      · simp at hx
      · rcases List.mem_filterMap.mp hjs with ⟨j, hj, hje⟩
        rcases attributionLoop_ok_kept hloop j hj i hje hev with ⟨a, hmk⟩
        refine ⟨a, ?_, (batchJudgmentAttribution_ok hmk).2.1⟩
        rw [← hattrs]
        refine List.mem_append.mpr (Or.inl ?_)
        rw [attributionLoop_ok_fst hloop]
        refine List.mem_filterMap.mpr ⟨j, hj, ?_⟩
        rw [hje]
        simp [hev, hmk, Except.toOption]
    · refine ⟨notProcessedAttribution i, ?_, rfl⟩
      rw [← hattrs]
      refine List.mem_append.mpr (Or.inr ?_)
      exact List.mem_map.mpr ⟨i, List.mem_filter.mpr ⟨hi, by simp [hm]⟩, rfl⟩
  · intro i hi habs
    have hm : i ∉ r.2 := by
      intro hmem
      rcases (hsnd i).mp hmem with hx | ⟨hjs, _⟩
      · simp at hx
      · exact habs hjs
    rw [← hattrs]
    refine List.mem_append.mpr (Or.inr ?_)
    exact List.mem_map.mpr ⟨i, List.mem_filter.mpr ⟨hi, by simp [hm]⟩, rfl⟩
  · intro hnd hjd
    have hlen : attrs.length = r.1.length +
        (eventIds.filter (fun i => !(i ∈ r.2 : Bool))).length := by
      rw [← hattrs]
      simp
    rw [hlen, attributionLoop_ok_total_length hloop hnd hjd]

/-- C6 (code bug): the intended one-attribution-per-input-event guarantee
holds of every parse that completes — each input id is covered, an id
absent from the response's judgments gets the synthesized review-flagged
zero-confidence attribution (every id, when there is no parseable JSON),
and with duplicate-free ids the output has exactly one attribution per
input event — but a response judgment that names a character makes both
parsers raise `AttributeError` in the nonexistent character lookup and
return no attributions at all, dropping every input event of that batch. -/
theorem C6_no_silent_drops :
    parseAttributionResponse (some hiConfNamed) [ev1] =
      .error (.attributeError "get_character_id") ∧
    parseEventAttributionResult (some hiConfNamed) [1] =
      .error (.attributeError "get_character_id") ∧
    (∀ events : List InputEvent,
      parseAttributionResponse none events =
        .ok (events.map (fun e => failedParseAttribution e.id))) ∧
    (∀ eventIds : List Int,
      parseEventAttributionResult none eventIds =
        .ok (eventIds.map notProcessedAttribution)) ∧
    (∀ (data : AttrData) (events : List InputEvent) (attrs : List EventAttribution),
      parseAttributionResponse (some data) events = .ok attrs →
      (∀ e ∈ events, ∃ a ∈ attrs, a.event_id = e.id) ∧
      (∀ e ∈ events, e.id ∉ data.attributions.filterMap (fun j => j.event_id) →
        notProcessedAttribution e.id ∈ attrs) ∧
      ((events.map (fun e => e.id)).Nodup →
        (data.attributions.filterMap (fun j => j.event_id)).Nodup →
        attrs.length = events.length)) ∧
    (∀ (data : AttrData) (eventIds : List Int) (attrs : List EventAttribution),
      parseEventAttributionResult (some data) eventIds = .ok attrs →
      (∀ i ∈ eventIds, ∃ a ∈ attrs, a.event_id = i) ∧
      (∀ i ∈ eventIds, i ∉ data.attributions.filterMap (fun j => j.event_id) →
        notProcessedAttribution i ∈ attrs) ∧
      (eventIds.Nodup → (data.attributions.filterMap (fun j => j.event_id)).Nodup →
        attrs.length = eventIds.length)) := by
  refine ⟨rfl, rfl, fun events => rfl, ?_, ?_, ?_⟩
  · intro eventIds
    simp only [parseEventAttributionResult, except_map_ok, Except.ok.injEq]
    induction eventIds with
    | nil => rfl
    | cons i rest ih => simp [List.filter_cons, ih]
  · intro data events attrs h
    exact parseAttributionResponse_some_ok h
  · intro data eventIds attrs h
    exact parseEventAttributionResult_some_ok h

/-- C6 (witness): the completed-parse guarantees at a concrete two-event
input whose (unnamed-character, hence non-crashing) response judgment
covers only event 1: event 2 gets the synthesized attribution and the
output has one attribution per input event. -/
theorem C6_no_silent_drops_witness :
    (∀ e ∈ [ev1, ev2], ∃ a ∈ [hiConfSyncAttr, notProcessedAttribution 2], a.event_id = e.id) ∧
    notProcessedAttribution 2 ∈ [hiConfSyncAttr, notProcessedAttribution 2] ∧
    ([hiConfSyncAttr, notProcessedAttribution 2] : List EventAttribution).length =
      [ev1, ev2].length := by
  have hparse : parseAttributionResponse (some hiConfUnnamed) [ev1, ev2] =
      .ok [hiConfSyncAttr, notProcessedAttribution 2] := by
    norm_num [parseAttributionResponse, attributionLoop, syncJudgmentAttribution,
      syncCharacterId, except_bind_ok, except_map_ok, hiConfUnnamed, unnamedJudgment,
      ev1, ev2, hiConfSyncAttr, notProcessedAttribution, AUTO_ACCEPT_THRESHOLD]
    decide
  have h := C6_no_silent_drops.2.2.2.2.1 hiConfUnnamed [ev1, ev2] _ hparse
  refine ⟨h.1, ?_, h.2.2 (by decide) (by decide)⟩
  exact h.2.1 ev2 (by simp) (by decide)

/-! ## C9 -/

/-- A response judgment whose `event_type` names a string outside the
spec's closed enumeration; its character name is the empty string, which
both parsers short-circuit past the broken lookup. -/
def bananaData : AttrData :=
  { attributions := [mkJudgment 1 (1 / 2) "" "banana"] }

/-- The sync attribution produced for that judgment: the unknown type
string is passed through verbatim. -/
def bananaSyncAttr : EventAttribution :=
  { event_id := 1, event_type := "banana", character_name := some "", character_id := none,
    parsed_data := [], confidence := 1 / 2, reasoning := "r",
    auto_accepted := false, needs_review := true }

/-- C9 (counterexample): a judgment with `event_type = "banana"` — outside
the closed enumeration — yields an attribution whose `event_type` is
`"banana"`, not `"other"`, in both parsers. -/
theorem C9_counterexample :
    (parseAttributionResponse (some bananaData) [ev1]).map
      (List.map (fun a => a.event_type)) = .ok ["banana"] ∧
    (parseEventAttributionResult (some bananaData) [1]).map
      (List.map (fun a => a.event_type)) = .ok ["banana"] :=
  ⟨rfl, rfl⟩

/-- C9 (amended): a judgment whose `event_type` field is missing yields
`"other"` (as do the synthesized fallback attributions), but a present
type string is passed through unvalidated: every attribution of a
completed parse either has type `"other"` or takes its type verbatim from
some response judgment. -/
theorem C9_amended (respJson : Option AttrData) (events : List InputEvent)
    (eventIds : List Int) :
    (∀ attrs, parseAttributionResponse respJson events = .ok attrs →
      ∀ a ∈ attrs, a.event_type = "other" ∨
        ∃ j ∈ (respJson.map (fun d => d.attributions)).getD [],
          j.event_type = some a.event_type) ∧
    (∀ attrs, parseEventAttributionResult respJson eventIds = .ok attrs →
      ∀ a ∈ attrs, a.event_type = "other" ∨
        ∃ j ∈ (respJson.map (fun d => d.attributions)).getD [],
          j.event_type = some a.event_type) := by
  constructor
  · intro attrs h a ha
    rcases mem_parseAttributionResponse_ok h ha with ⟨eid, j, hj, _, hmk⟩ | ⟨i, rfl⟩ | ⟨i, rfl⟩
    · have hty := (syncJudgmentAttribution_ok hmk).2.2.2.1
      cases hje : j.event_type with
      | none => rw [hty, hje]; exact Or.inl rfl
      | some t =>
        refine Or.inr ⟨j, hj, ?_⟩
        rw [hje, hty, hje]
        rfl
    · exact Or.inl rfl
    · exact Or.inl rfl
  · intro attrs h a ha
    rcases mem_parseEventAttributionResult_ok h ha with ⟨eid, j, hj, _, hmk⟩ | ⟨i, rfl⟩
    · have hty := (batchJudgmentAttribution_ok hmk).2.2.2.1
      cases hje : j.event_type with
      | none => rw [hty, hje]; exact Or.inl rfl
      | some t =>
        refine Or.inr ⟨j, hj, ?_⟩
        rw [hje, hty, hje]
        rfl
    · exact Or.inl rfl

/-- C9 (witness): the amended statement instantiated at the concrete
out-of-enumeration judgment, whose attribution takes its type from the
judgment. -/
theorem C9_amended_witness :
    bananaSyncAttr.event_type = "other" ∨
      ∃ j ∈ ((some bananaData).map (fun d => d.attributions)).getD [],
        j.event_type = some bananaSyncAttr.event_type :=
  (C9_amended (some bananaData) [ev1] [1]).1 [bananaSyncAttr]
    (by
      norm_num [parseAttributionResponse, attributionLoop, syncJudgmentAttribution,
        syncCharacterId, except_bind_ok, except_map_ok, bananaData, mkJudgment,
        ev1, bananaSyncAttr, AUTO_ACCEPT_THRESHOLD])
    bananaSyncAttr (by simp)

/-! ## C10 -/

theorem mem_insertByPos (a x : ProgressionEvent) (l : List ProgressionEvent) :
    a ∈ insertByPos x l ↔ a = x ∨ a ∈ l := by
  induction l with
  | nil => simp [insertByPos]
  | cons y ys ih =>
    unfold insertByPos
    by_cases hc : y.position < x.position
    · simp only [hc, if_true, List.mem_cons, ih]
      tauto
    · simp only [hc, if_false, List.mem_cons]

theorem mem_sortByPos (a : ProgressionEvent) (l : List ProgressionEvent) :
    a ∈ sortByPos l ↔ a ∈ l := by
  induction l with
  | nil => simp [sortByPos]
  | cons x xs ih =>
    unfold sortByPos
    rw [mem_insertByPos, ih, List.mem_cons]

theorem pairwise_insertByPos (x : ProgressionEvent) (l : List ProgressionEvent)
    (h : l.Pairwise (fun a b => a.position ≤ b.position)) :
    (insertByPos x l).Pairwise (fun a b => a.position ≤ b.position) := by
  induction l with
  | nil => simp [insertByPos]
  | cons y ys ih =>
    rcases List.pairwise_cons.mp h with ⟨hy, hys⟩
    unfold insertByPos
    by_cases hc : y.position < x.position
    · simp only [hc, if_true]
      refine List.pairwise_cons.mpr ⟨?_, ih hys⟩
      intro z hz
      rcases (mem_insertByPos z x ys).mp hz with rfl | hz
      · exact Nat.le_of_lt hc
      · exact hy z hz
    · simp only [hc, if_false]
      refine List.pairwise_cons.mpr ⟨?_, h⟩
      intro z hz
      rcases List.mem_cons.mp hz with rfl | hz
      · exact Nat.le_of_not_lt hc
      · exact Nat.le_trans (Nat.le_of_not_lt hc) (hy z hz)

theorem pairwise_sortByPos (l : List ProgressionEvent) :
    (sortByPos l).Pairwise (fun a b => a.position ≤ b.position) := by
  induction l with
  | nil => exact List.Pairwise.nil
  | cons x xs ih => exact pairwise_insertByPos x (sortByPos xs) ih

/-- C10: the classifier is deterministic — `parse_text` applied twice to the
same string yields identical output — and that output is sorted by document
position. -/
theorem C10_deterministic_sorted (text : String) :
    parse_text text = parse_text text ∧
      (parse_text text).Pairwise (fun a b => a.position ≤ b.position) := by
  refine ⟨rfl, ?_⟩
  unfold parse_text
  by_cases h : text = ""
  · simp [h]
  · simp only [h, if_false]
    exact pairwise_sortByPos _

/-! ## C7 -/

theorem take_take_length (l : List α) (k : Nat) :
    l.take (l.take k).length = l.take k := by
  rw [List.length_take, List.take_eq_take]
  rw [Nat.min_assoc, Nat.min_self]

theorem create_event_raw {ty : String} {m : RMatch} {full : List Char}
    {ev : ProgressionEvent} (h : create_event ty m full = some ev) :
    ev.raw_text.data = sliceStr full m.start m.stop ∧ ev.position = m.start := by
  unfold create_event at h
  rcases Option.map_eq_some'.mp h with ⟨pd, _, hev⟩
  rw [← hev]
  exact ⟨rfl, rfl⟩

theorem create_incomplete_event_raw {m : RMatch} {full : List Char}
    {ev : ProgressionEvent} (h : create_incomplete_event m full = some ev) :
    ev.raw_text.data = sliceStr full m.start m.stop ∧ ev.position = m.start := by
  unfold create_incomplete_event at h
  rcases Option.map_eq_some'.mp h with ⟨typd, _, hev⟩
  rw [← hev]
  exact ⟨rfl, rfl⟩

/-- C7 (amended): `parse_text` may emit several events for one bracketed
span — one per matching pattern of each event type, with no
first-match-wins cutoff — but no event is ever hallucinated: every emitted
event's `raw_text` is exactly the document's text at the event's position. -/
theorem C7_amended (text : String) :
    ∀ ev ∈ parse_text text,
      (text.data.drop ev.position).take ev.raw_text.data.length = ev.raw_text.data := by
  intro ev hev
  unfold parse_text at hev
  by_cases h : text = ""
  · simp [h] at hev
  · simp only [h, if_false] at hev
    rw [mem_sortByPos] at hev
    have hshape : ∃ m : RMatch, ev.raw_text.data = sliceStr text.data m.start m.stop ∧
        ev.position = m.start := by
      rcases List.mem_append.mp hev with hreg | hinc
      · rcases List.mem_flatMap.mp hreg with ⟨tp, _, htp⟩
        rcases List.mem_flatMap.mp htp with ⟨r, _, hr⟩
        rcases List.mem_filterMap.mp hr with ⟨m, _, hm⟩
        exact ⟨m, create_event_raw hm⟩
      · rcases List.mem_flatMap.mp hinc with ⟨r, _, hr⟩
        rcases List.mem_filterMap.mp hr with ⟨m, _, hm⟩
        exact ⟨m, create_incomplete_event_raw hm⟩
    rcases hshape with ⟨m, hraw, hpos⟩
    rw [hraw, hpos]
    unfold sliceStr
    exact take_take_length _ _

set_option maxRecDepth 4000 in
/-- C7 (counterexample): the single bracketed span
`[Warrior Class Obtained]` matches both the `class_obtained` pattern and the
catch-all `other` pattern, and `parse_text` emits BOTH events — two
`ClassifiedEvent`s with the same position and raw text for one span,
refuting the first-matching-type-wins claim. -/
theorem C7_counterexample :
    (parse_text "[Warrior Class Obtained]").map (fun e => (e.event_type, e.position, e.raw_text)) =
      [("class_obtained", 0, "[Warrior Class Obtained]"),
       ("other", 0, "[Warrior Class Obtained]")] := by decide

/-- The `class_obtained` event of `[Warrior Class Obtained]`, for the C7
witness. -/
def warriorEvent : ProgressionEvent :=
  { event_type := "class_obtained", raw_text := "[Warrior Class Obtained]",
    parsed_data := [("class_name", .pstr "Warrior")],
    context := "[Warrior Class Obtained]", position := 0, is_incomplete := false }

set_option maxRecDepth 4000 in
/-- C7 (witness): the amended statement at a concrete parsed event. -/
theorem C7_amended_witness :
    ("[Warrior Class Obtained]".data.drop warriorEvent.position).take
        warriorEvent.raw_text.data.length = warriorEvent.raw_text.data :=
  C7_amended "[Warrior Class Obtained]" warriorEvent (by decide)

/-! ## C8 -/

set_option maxRecDepth 4000 in
/-- C8 (counterexample): both halves of the word-count rule fail on the
pipeline.  `[the cat sat]` has a three-alphabetic-word interior yet yields
zero events (nothing matches any typed pattern), and
`[Extraordinarilyobtained]` has a one-word interior yet yields one event
(the catch-all `other` pattern matches). -/
theorem C8_counterexample :
    (alphaWords "the cat sat".data).length = 3 ∧
    parse_and_validate "[the cat sat]" = [] ∧
    (alphaWords "Extraordinarilyobtained".data).length = 1 ∧
    (parse_and_validate "[Extraordinarilyobtained]").length = 1 := by
  refine ⟨by decide, by decide, by decide, by decide⟩

set_option maxRecDepth 4000 in
/-- C8 (amended): the pipeline has no word-count filter — inclusion is
decided solely by the typed regex patterns.  The spec's scenarios still
hold where the patterns agree with them: `[Warrior]` alone yields zero
events, and `[Skill - Basic Bite Obtained!]` yields exactly one
`skill_obtained` event with skill name `Basic Bite`. -/
theorem C8_amended :
    parse_and_validate "[Warrior]" = [] ∧
    (parse_and_validate "[Skill - Basic Bite Obtained!]").map
        (fun e => (e.event_type, pdGetStr e.parsed_data "skill_name")) =
      [("skill_obtained", some "Basic Bite")] := by
  refine ⟨by decide, by decide⟩
